import Mathlib

/-!
Shallow embedding of the foxmd token-to-element transcription engine.

The repository contains two parser/renderer variants of the same design:
* `src/src/parser.ts` + `src/src/renderer.ts` — embedded below as `Foxmd.Main`
  (the renderer keeps the element-identity counter stack `elIdList` and
  assigns every element a key of the form "foxmd-" ++ elIdList.join("-")).
* `src/unnamed/part_003` + `src/unnamed/part_001` — embedded as `Foxmd.V2`
  (the parser keeps `elIdList` itself, threads raw-HTML-block buffering
  state, and passes the react key to every renderer method).

JavaScript state (the shared mutable `elIdList` array, the `headingIds`
Map held in the parser closure, the local raw-block buffer) is threaded
explicitly.  `console.warn` calls are modelled as an output list of warning
strings.  The external collaborators `decode` (npm package html-entities)
and `slugize` (src/utils, not among the provided sources) are injected as
configuration parameters; no claim depends on their internals.
-/

namespace Foxmd

/-- JS `String.prototype.startsWith`, modelled on the character list so that
it evaluates by kernel reduction. -/
def jsStartsWith (s p : String) : Bool := p.data.isPrefixOf s.data

/-- JS `String.prototype.includes` for a single-character needle. -/
def jsIncludesChar (s : String) (c : Char) : Bool := s.data.contains c

/-- Does a substring occur at some position of the character list? -/
def listHasInfix (needle : List Char) : List Char → Bool
  | [] => needle.isPrefixOf []
  | c :: cs => needle.isPrefixOf (c :: cs) || listHasInfix needle cs

/-- JS `String.prototype.includes` for a string needle. -/
def jsIncludesStr (s sub : String) : Bool := listHasInfix sub.data s.data

/-- JS `Array.prototype.join(sep)` (also foxts `fastStringArrayJoin`). -/
def joinSep (sep : String) : List String → String
  | [] => ""
  | [x] => x
  | x :: y :: xs => x ++ sep ++ joinSep sep (y :: xs)

/-- `getElementId` / `getReactKey`: `elIdList.join('-')` on the identity
counter stack. -/
def getElementId (elIdList : List Nat) : String :=
  joinSep "-" (elIdList.map toString)

/-- `incrementElId`: `elIdList[elIdList.length - 1] += 1`, i.e. increment the
last (innermost) counter; a no-op on the empty stack (never reached by the
parsers, which push before any increment). -/
def incLast : List Nat → List Nat
  | [] => []
  | [n] => [n + 1]
  | n :: m :: ns => n :: incLast (m :: ns)

/-- JS `Map.prototype.has` on an association list. -/
def mapHas (m : List (String × Nat)) (k : String) : Bool :=
  m.any (fun p => p.1 == k)

/-- JS `Map.prototype.get` on an association list (only consulted under a
`has` guard in the source, so the default value for a missing key is never
observed). -/
def mapGet (m : List (String × Nat)) (k : String) : Nat :=
  match m.find? (fun p => p.1 == k) with
  | some p => p.2
  | none => 0

/-- JS `Map.prototype.set` on an association list: replace in place when the
key exists, append otherwise. -/
def mapSet (m : List (String × Nat)) (k : String) (v : Nat) : List (String × Nat) :=
  if mapHas m k then m.map (fun p => if p.1 == k then (k, v) else p)
  else m ++ [(k, v)]

/-- The `console.warn` diagnostic emitted by every `default:` dispatch case. -/
def warnMsg (ty : String) : String :=
  "[foxmd] Token with \"" ++ ty ++ "\" type was not found"

mutual
/-- A marked.js token (spec section 3).  Only the fields the transcribers read
are carried.  `text` carries its optional nested inline token list
(`Tokens.Text.tokens`), `html` carries the optional `inRawBlock` flag
(`'inRawBlock' in token` is presence of the field), and `unknown ty` stands
for any `type` tag outside the recognized closed set. -/
inductive Token where
  | space
  | heading (depth : Nat) (tokens : List Token)
  | paragraph (tokens : List Token)
  | text (txt : String) (tokens : Option (List Token))
  | blockquote (tokens : List Token)
  | listTok (ordered : Bool) (start : Nat) (items : List ListItemTok)
  | code (txt : String) (lang : Option String)
  | html (txt : String) (inRawBlock : Option Bool)
  | table (align : List (Option String)) (header : List TableCellTok)
      (rows : List (List TableCellTok))
  | hr
  | strong (tokens : List Token)
  | em (tokens : List Token)
  | del (tokens : List Token)
  | codespan (txt : String)
  | link (href : String) (title : Option String) (tokens : List Token)
  | image (href : String) (txt : String) (title : Option String)
  | br
  | escape (txt : String)
  | unknown (ty : String)

/-- A marked.js list item: `{ task, checked, tokens }`. -/
inductive ListItemTok where
  | mk (task : Bool) (checked : Option Bool) (tokens : List Token)

/-- A marked.js table cell: only its `tokens` field is read. -/
inductive TableCellTok where
  | mk (tokens : List Token)
end

/-- The `type` tag of a token, as dispatched on by the `switch` statements. -/
def tokType : Token → String
  | .space => "space"
  | .heading _ _ => "heading"
  | .paragraph _ => "paragraph"
  | .text _ _ => "text"
  | .blockquote _ => "blockquote"
  | .listTok _ _ _ => "list"
  | .code _ _ => "code"
  | .html _ _ => "html"
  | .table _ _ _ => "table"
  | .hr => "hr"
  | .strong _ => "strong"
  | .em _ => "em"
  | .del _ => "del"
  | .codespan _ => "codespan"
  | .link _ _ _ => "link"
  | .image _ _ _ => "image"
  | .br => "br"
  | .escape _ => "escape"
  | .unknown ty => ty

/-- A React.ReactNode as produced by the renderers: JS `null`, a plain string,
an array of nodes, an intrinsic element created by the internal `h` helper
(tag, optional key, suppressHydrationWarning flag, the props that are present
and defined, children), or the opaque result of the out-of-scope HTML-fragment
collaborator `htmlToReact` (spec sections 2 and 6 treat it as an external
collaborator returning opaque elements). -/
inductive Node where
  | null
  | str (s : String)
  | list (ns : List Node)
  | elem (tag : String) (key : Option String) (shw : Bool)
      (props : List (String × String)) (child : Node)
  | htmlEmbed (key : String) (content : String)

/-- One table-of-contents record: `{ text, id, level }`. -/
structure TocEntry where
  text : String
  id : String
  level : Nat

mutual
/-- All React keys occurring in an element tree, in preorder. -/
def collectKeys : Node → List String
  | .null => []
  | .str _ => []
  | .list ns => collectKeysList ns
  | .elem _ key _ _ child => key.toList ++ collectKeys child
  | .htmlEmbed key _ => [key]

/-- All React keys occurring in a list of element trees. -/
def collectKeysList : List Node → List String
  | [] => []
  | n :: ns => collectKeys n ++ collectKeysList ns
end

/-- The heading-id bookkeeping of `parse`'s 'heading' case
(src/src/parser.ts lines 51-59): given the occurrence table and the base
slug, return the emitted id and the updated table.  Note the source calls
`headingIds.set(id, headingIndex)` with the base id, before `id` is
reassigned to the suffixed value. -/
def registerSlug (headingIds : List (String × Nat)) (id : String) :
    String × List (String × Nat) :=
  if mapHas headingIds id then
    let headingIndex := mapGet headingIds id + 1
    (id ++ "-" ++ toString headingIndex, mapSet headingIds id headingIndex)
  else
    (id, mapSet headingIds id 1)

/-- `href.startsWith('javascript:') || href.startsWith('data:') ||
href.startsWith('vbscript:')` — the link-safety denylist test shared by both
renderer variants. -/
def isUnsafeHref (href : String) : Bool :=
  jsStartsWith href "javascript:" || jsStartsWith href "data:" ||
    jsStartsWith href "vbscript:"

/-- Emit an optional prop: present exactly when the value is defined
(`createElement` renders nothing for an undefined attribute, and the
part_001 `h` filters undefined values out explicitly). -/
def optProp (k : String) : Option String → List (String × String)
  | none => []
  | some v => [(k, v)]

/-- The `knownLangMap` table of src/src/renderer.ts / part_001. -/
def knownLangMap : List (String × String) :=
  [("bash", "shell"), ("zsh", "shell"), ("sh", "shell"), ("js", "javascript"),
   ("ts", "typescript"), ("py", "python"), ("yml", "yaml")]

/-- `knownLangMap.has(lang) ? knownLangMap.get(lang)! : lang`. -/
def langLookup (l : String) : String :=
  match knownLangMap.find? (fun p => p.1 == l) with
  | some p => p.2
  | none => l

/-- JS `String.prototype.toUpperCase` (ASCII suffices for the language tags). -/
def jsToUpper (s : String) : String := String.mk (s.data.map Char.toUpper)

/-- `lang ? "language-" + lang : undefined` — the codespan class name; `lang`
is falsy when null/undefined or the empty string. -/
def codespanClassName : Option String → Option String
  | none => none
  | some l => if l = "" then none else some ("language-" ++ l)

/-- JS `String.prototype.split` with a single-character separator, on the
character list. -/
def splitChar (c : Char) : List Char → List (List Char)
  | [] => [[]]
  | a :: rest =>
    if a = c then [] :: splitChar c rest
    else
      match splitChar c rest with
      | [] => [[a]]
      | g :: gs => (a :: g) :: gs

/-- JS `s.split(c)` returning strings. -/
def jsSplit (s : String) (c : Char) : List String :=
  (splitChar c s.data).map (fun cs => String.mk cs)

/-- Longest leading run of decimal digits (the greedy `\d+` of the size
regex) together with the rest. -/
def takeDigits : List Char → List Char × List Char
  | [] => ([], [])
  | c :: rest =>
    if c.isDigit then
      let r := takeDigits rest
      (c :: r.1, r.2)
    else ([], c :: rest)

/-- Try to match the regex `size:(\d+)x(\d+)` at the start of the character
list; on success return the two captured digit groups and the remainder. -/
def matchSizeAt (cs : List Char) : Option (String × String × List Char) :=
  if ("size:".data).isPrefixOf cs then
    let rest0 := cs.drop 5
    let d1 := takeDigits rest0
    if d1.1.isEmpty then none
    else
      match d1.2 with
      | 'x' :: rest1 =>
        let d2 := takeDigits rest1
        if d2.1.isEmpty then none
        else some (String.mk d1.1, String.mk d2.1, d2.2)
      | _ => none
  else none

/-- Leftmost match of `size:(\d+)x(\d+)`: the text before the match, the two
captured groups, and the text after the match. -/
def findSize : List Char → Option (List Char × String × String × List Char)
  | [] => none
  | c :: cs =>
    match matchSizeAt (c :: cs) with
    | some r => some ([], r.1, r.2.1, r.2.2)
    | none =>
      match findSize cs with
      | some r => some (c :: r.1, r.2.1, r.2.2.1, r.2.2.2)
      | none => none

/-- `title.replace(/size:(\d+)x(\d+)/, cb)`: the replaced string (match
deleted) and the captured width/height when the pattern matched. -/
def replaceSize (title : String) : String × Option (String × String) :=
  match findSize title.data with
  | some r => (String.mk r.1 ++ String.mk r.2.2.2, some (r.2.1, r.2.2.1))
  | none => (title, none)

/-- The `specialImageSizeInTitleOrAlt` attribute computation shared verbatim
by both renderer variants' `image` methods: derive width/height from an
"alt|WxH" alt text or from a "size:WxH" fragment of the title, and return
the final (alt, title, width, height) attribute values. -/
def imageSizeAttrs (alt0 : String) (title0 : Option String) :
    String × Option String × Option String × Option String :=
  let s1 : String × Option String × Option String :=
    if jsIncludesChar alt0 '|' then
      let parts := jsSplit alt0 '|'
      let newAlt := parts.headD ""
      let sizeOrImageLocalPath := (parts.drop 1).headD ""
      if sizeOrImageLocalPath ≠ "" && jsIncludesChar sizeOrImageLocalPath 'x' then
        let wh := (jsSplit sizeOrImageLocalPath 'x').map String.trim
        (newAlt, wh.head?, (wh.drop 1).head?)
      else (alt0, none, none)
    else (alt0, none, none)
  if (s1.2.1.isNone || s1.2.2.isNone) &&
      (match title0 with | some t => jsIncludesStr t "size:" | none => false) then
    match title0 with
    | some t =>
      let r := replaceSize t
      match r.2 with
      | some wh => (s1.1, some r.1, some wh.1, some wh.2)
      | none => (s1.1, some r.1, s1.2.1, s1.2.2)
    | none => (s1.1, title0, s1.2.1, s1.2.2)
  else (s1.1, title0, s1.2.1, s1.2.2)

/-- The full `img` props list `{ src, alt, title, width, height }` produced by
the renderers' `image` method. -/
def imageProps (special : Bool) (src alt0 : String) (title0 : Option String) :
    List (String × String) :=
  if special then
    let a := imageSizeAttrs alt0 title0
    [("src", src), ("alt", a.1)] ++ optProp "title" a.2.1 ++
      optProp "width" a.2.2.1 ++ optProp "height" a.2.2.2
  else
    [("src", src), ("alt", alt0)] ++ optProp "title" title0

/-- `ordered && start !== 1 ? { start } : {}` — the list start prop. -/
def listStartProps (ordered : Bool) (start : Option Nat) : List (String × String) :=
  if ordered && start != some 1 then optProp "start" (start.map toString) else []

/-- `token.tokens?.length === 1 && token.tokens[0].type === 'image'`. -/
def isSingleImage : List Token → Bool
  | [Token.image _ _ _] => true
  | _ => false

/-- Extract the value of a prop of an element node (used to inspect the href
the link constructors put on the anchor element). -/
def propOf (n : Node) (k : String) : Option String :=
  match n with
  | .elem _ _ _ props _ =>
    match props.find? (fun p => p.1 == k) with
    | some p => some p.2
    | none => none
  | _ => none

end Foxmd

namespace Foxmd.Main

/-- Configuration of the src/src variant: the two injected external functions
and the option flags of `createFoxmdRenderer` / `createFoxmdParser`
(source defaults: pick=false, shw=false, special=true, allowHtml=false).
`decode` is the html-entities collaborator and `slugize` lives in src/utils,
which is not among the provided sources; both are parameters because no
claim depends on their internals. -/
structure Config where
  decode : String → String
  slugize : String → String
  UNSAFE_pickSingleImageChildOutOfParentParagraph : Bool
  suppressHydrationWarning : Bool
  specialImageSizeInTitleOrAlt : Bool
  UNSAFE_allowHtml : Bool

/-- The mutable state shared through one `createFoxmdParser` instance: the
renderer's `elIdList` counter stack and the parser closure's `headingIds`
map (note: the map lives in the closure, outside `parse`). -/
structure St where
  elIdList : List Nat
  headingIds : List (String × Nat)

/-- `elIdList.push(0)`. -/
def St.push (st : St) : St := { st with elIdList := st.elIdList ++ [0] }

/-- `elIdList.pop()`. -/
def St.pop (st : St) : St := { st with elIdList := st.elIdList.dropLast }

/-- `renderer.incrementElId()`. -/
def St.inc (st : St) : St := { st with elIdList := incLast st.elIdList }

namespace Renderer

/-- The internal `h` helper of src/src/renderer.ts: every element receives
`key: 'foxmd-' + getElementId()` read from the current `elIdList`, plus the
`suppressHydrationWarning` flag. -/
def h (cfg : Config) (ids : List Nat) (tag : String) (child : Node)
    (props : List (String × String)) : Node :=
  Node.elem tag (some ("foxmd-" ++ getElementId ids)) cfg.suppressHydrationWarning
    props child

/-- `heading(children, level, id)`. -/
def heading (cfg : Config) (ids : List Nat) (child : Node) (level : Nat)
    (id : String) : Node :=
  h cfg ids ("h" ++ toString level) child [("id", id)]

/-- `paragraph(children)`. -/
def paragraph (cfg : Config) (ids : List Nat) (child : Node) : Node :=
  h cfg ids "p" child []

/-- `link(href, text, title)`: hrefs with an unsafe scheme are rewritten to
the empty string before the anchor element is constructed (the `target`
prop is always undefined and therefore absent). -/
def link (cfg : Config) (ids : List Nat) (href : String) (text : Node)
    (title : Option String) : Node :=
  let href := if isUnsafeHref href then "" else href
  h cfg ids "a" text ([("href", href)] ++ optProp "title" title)

/-- `image(src, alt, title)` with the `specialImageSizeInTitleOrAlt`
width/height extraction. -/
def image (cfg : Config) (ids : List Nat) (src alt : String)
    (title : Option String) : Node :=
  h cfg ids "img" Node.null (imageProps cfg.specialImageSizeInTitleOrAlt src alt title)

/-- `codespan(code, lang)`. -/
def codespan (cfg : Config) (ids : List Nat) (code : String)
    (lang : Option String) : Node :=
  h cfg ids "code" (Node.str code) (optProp "className" (codespanClassName lang))

/-- `code(code, lang)`: a `pre` wrapping `this.codespan(code, lang)`; both
`h` calls read the same `elIdList`. -/
def code (cfg : Config) (ids : List Nat) (codeStr : String)
    (lang : Option String) : Node :=
  let lang := lang.getD ""
  h cfg ids "pre" (codespan cfg ids codeStr (some lang))
    [("data-language", jsToUpper (langLookup lang))]

/-- `blockquote(children)`. -/
def blockquote (cfg : Config) (ids : List Nat) (child : Node) : Node :=
  h cfg ids "blockquote" child []

/-- `list(children, ordered, start)`. -/
def list (cfg : Config) (ids : List Nat) (child : Node) (ordered : Bool)
    (start : Option Nat) : Node :=
  h cfg ids (if ordered then "ol" else "ul") child (listStartProps ordered start)

/-- `listItem(children)`. -/
def listItem (cfg : Config) (ids : List Nat) (child : Node) : Node :=
  h cfg ids "li" child []

/-- `checkbox(checked)`. -/
def checkbox (cfg : Config) (ids : List Nat) (checked : Bool) : Node :=
  h cfg ids "input" Node.null
    [("type", "checkbox"), ("disabled", "true"), ("checked", toString checked)]

/-- `table(children)`. -/
def table (cfg : Config) (ids : List Nat) (child : Node) : Node :=
  h cfg ids "table" child []

/-- `tableHeader(children)`. -/
def tableHeader (cfg : Config) (ids : List Nat) (child : Node) : Node :=
  h cfg ids "thead" child []

/-- `tableBody(children)`. -/
def tableBody (cfg : Config) (ids : List Nat) (child : Node) : Node :=
  h cfg ids "tbody" child []

/-- `tableRow(children)`. -/
def tableRow (cfg : Config) (ids : List Nat) (child : Node) : Node :=
  h cfg ids "tr" child []

/-- `tableCell(children, flags)`. -/
def tableCell (cfg : Config) (ids : List Nat) (child : Node) (header : Bool)
    (align : Option String) : Node :=
  h cfg ids (if header then "th" else "td") child (optProp "align" align)

/-- `strong(children)`. -/
def strong (cfg : Config) (ids : List Nat) (child : Node) : Node :=
  h cfg ids "strong" child []

/-- `em(children)`. -/
def em (cfg : Config) (ids : List Nat) (child : Node) : Node :=
  h cfg ids "em" child []

/-- `del(children)`. -/
def del (cfg : Config) (ids : List Nat) (child : Node) : Node :=
  h cfg ids "del" child []

/-- `text(text)`: returns its argument unchanged (no element, no key). -/
def text (t : String) : Node := Node.str t

/-- `html(html)`: with `UNSAFE_allowHtml` a keyed `div` carrying the raw
markup via `dangerouslySetInnerHTML`, otherwise the raw string itself. -/
def html (cfg : Config) (ids : List Nat) (htmlStr : String) : Node :=
  if cfg.UNSAFE_allowHtml then
    h cfg ids "div" Node.null
      [("dangerouslySetInnerHTML", htmlStr), ("style", "display: contents")]
  else Node.str htmlStr

/-- `hr()`. -/
def hr (cfg : Config) (ids : List Nat) : Node := h cfg ids "hr" Node.null []

/-- `br()`. -/
def br (cfg : Config) (ids : List Nat) : Node := h cfg ids "br" Node.null []

end Renderer

mutual
/-- `getText(tokens)` of src/src/parser.ts, one token: the plain-text piece
it contributes, together with the `console.warn` diagnostics of its
`default:` case. -/
def getTextTok (cfg : Config) : Token → String × List String
  | .text txt _ => (cfg.decode txt, [])
  | .codespan txt => (cfg.decode txt, [])
  | .strong ts =>
    let r := getTextList cfg ts
    (joinSep "-" r.1, r.2)
  | .em ts =>
    let r := getTextList cfg ts
    (joinSep "-" r.1, r.2)
  | .del ts =>
    let r := getTextList cfg ts
    (joinSep "-" r.1, r.2)
  | .link _ _ ts =>
    let r := getTextList cfg ts
    (joinSep "-" r.1, r.2)
  | .image _ _ _ => ("", [])
  | .html _ _ => ("", [])
  | .br => ("", [])
  | .escape _ => ("", [])
  | t => ("", [warnMsg (tokType t)])

/-- The token-wise pieces of `getText`, before the final join. -/
def getTextList (cfg : Config) : List Token → List String × List String
  | [] => ([], [])
  | t :: ts =>
    let r1 := getTextTok cfg t
    let r2 := getTextList cfg ts
    (r1.1 :: r2.1, r1.2 ++ r2.2)
end

/-- `getText(tokens)`: `fastStringArrayJoin(tokens.map(...), '-')`, plus the
collected diagnostics. -/
def getText (cfg : Config) (ts : List Token) : String × List String :=
  let r := getTextList cfg ts
  (joinSep "-" r.1, r.2)

/-- Result of one `parseInline` call: the jsx array, the threaded state, and
the `console.warn` output (the source also returns `toc: []`). -/
structure IRes where
  jsx : List Node
  st : St
  warns : List String

/-- Result of transcribing one token: the produced React node, the threaded
state, and the warnings. -/
structure NRes where
  node : Node
  st : St
  warns : List String

mutual
/-- `parseInline(tokens)` of src/src/parser.ts: push a fresh counter, walk
the tokens, pop. -/
def parseInline (cfg : Config) (tokens : List Token) (st : St) : IRes :=
  let r := parseInlineTokens cfg tokens st.push
  ⟨r.jsx, r.st.pop, r.warns⟩

/-- The `tokens.map(...)` walk of `parseInline`. -/
def parseInlineTokens (cfg : Config) : List Token → St → IRes
  | [], st => ⟨[], st, []⟩
  | t :: ts, st =>
    let r1 := parseInlineTok cfg t st
    let r2 := parseInlineTokens cfg ts r1.st
    ⟨r1.node :: r2.jsx, r2.st, r1.warns ++ r2.warns⟩

/-- One dispatch step of `parseInline`'s `switch (token.type)`.  Renderer
methods read the shared `elIdList` at the moment they run, i.e. after the
recursive `parseInline` argument has been evaluated. -/
def parseInlineTok (cfg : Config) : Token → St → NRes
  | .text txt _, st =>
    let st1 := st.inc
    ⟨Renderer.text (cfg.decode txt), st1, []⟩
  | .strong ts, st =>
    let st1 := st.inc
    let r := parseInline cfg ts st1
    ⟨Renderer.strong cfg r.st.elIdList (Node.list r.jsx), r.st, r.warns⟩
  | .em ts, st =>
    let st1 := st.inc
    let r := parseInline cfg ts st1
    ⟨Renderer.em cfg r.st.elIdList (Node.list r.jsx), r.st, r.warns⟩
  | .del ts, st =>
    let st1 := st.inc
    let r := parseInline cfg ts st1
    ⟨Renderer.del cfg r.st.elIdList (Node.list r.jsx), r.st, r.warns⟩
  | .codespan txt, st =>
    let st1 := st.inc
    ⟨Renderer.codespan cfg st1.elIdList (cfg.decode txt) none, st1, []⟩
  | .link href title ts, st =>
    let st1 := st.inc
    let r := parseInline cfg ts st1
    ⟨Renderer.link cfg r.st.elIdList href (Node.list r.jsx) title, r.st, r.warns⟩
  | .image href txt title, st =>
    let st1 := st.inc
    ⟨Renderer.image cfg st1.elIdList href txt title, st1, []⟩
  | .html txt _, st =>
    let st1 := st.inc
    ⟨Renderer.html cfg st1.elIdList txt, st1, []⟩
  | .br, st =>
    let st1 := st.inc
    ⟨Renderer.br cfg st1.elIdList, st1, []⟩
  | .escape txt, st =>
    let st1 := st.inc
    ⟨Renderer.text txt, st1, []⟩
  | t, st => ⟨Node.null, st, [warnMsg (tokType t)]⟩
end

/-- The `tableToken.header.map(...)` / `row.map(...)` cell loops of `parse`'s
'table' case: note there is no `incrementElId()` call before `tableCell`, so
every cell of one row is keyed from the same counter stack. -/
def tableCells (cfg : Config) (aligns : List (Option String)) (header : Bool) :
    List TableCellTok → Nat → St → IRes
  | [], _, st => ⟨[], st, []⟩
  | .mk ts :: cells, idx, st =>
    let r := parseInline cfg ts st
    let node := Renderer.tableCell cfg r.st.elIdList (Node.list r.jsx) header
      (aligns.getD idx none)
    let rest := tableCells cfg aligns header cells (idx + 1) r.st
    ⟨node :: rest.jsx, rest.st, r.warns ++ rest.warns⟩

/-- The `tableToken.rows.map(...)` body-row loop of `parse`'s 'table' case. -/
def tableRows (cfg : Config) (aligns : List (Option String)) :
    List (List TableCellTok) → St → IRes
  | [], st => ⟨[], st, []⟩
  | row :: rows, st =>
    let cells := tableCells cfg aligns false row 0 st.push
    let st1 := (cells.st.pop).inc
    let node := Renderer.tableRow cfg st1.elIdList (Node.list cells.jsx)
    let rest := tableRows cfg aligns rows st1
    ⟨node :: rest.jsx, rest.st, cells.warns ++ rest.warns⟩

/-- Result of one `parse` call: jsx, the table of contents collected from
this invocation's heading tokens, the threaded state, and the warnings. -/
structure BRes where
  jsx : List Node
  toc : List TocEntry
  st : St
  warns : List String

/-- Result of transcribing one block-level token. -/
structure BNRes where
  node : Node
  toc : List TocEntry
  st : St
  warns : List String

mutual
/-- `parse(tokens)` of src/src/parser.ts: push a fresh counter, walk the
tokens collecting `tocObj`, pop. -/
def parse (cfg : Config) (tokens : List Token) (st : St) : BRes :=
  let r := parseTokens cfg tokens st.push
  ⟨r.jsx, r.toc, r.st.pop, r.warns⟩

/-- The `tokens.map(...)` walk of `parse`. -/
def parseTokens (cfg : Config) : List Token → St → BRes
  | [], st => ⟨[], [], st, []⟩
  | t :: ts, st =>
    let r1 := parseTok cfg t st
    let r2 := parseTokens cfg ts r1.st
    ⟨r1.node :: r2.jsx, r1.toc ++ r2.toc, r2.st, r1.warns ++ r2.warns⟩

/-- One dispatch step of `parse`'s `switch (token.type)`. -/
def parseTok (cfg : Config) : Token → St → BNRes
  | .space, st => ⟨Node.null, [], st, []⟩
  | .heading depth ts, st =>
    let tw := getText cfg ts
    let reg := registerSlug st.headingIds (cfg.slugize tw.1)
    let st1 : St := ⟨st.elIdList, reg.2⟩
    let st2 := st1.inc
    let r := parseInline cfg ts st2
    ⟨Renderer.heading cfg r.st.elIdList (Node.list r.jsx) depth reg.1,
      [⟨tw.1, reg.1, depth⟩], r.st, tw.2 ++ r.warns⟩
  | .paragraph ts, st =>
    if cfg.UNSAFE_pickSingleImageChildOutOfParentParagraph && isSingleImage ts then
      let r := parseInline cfg ts st
      ⟨Node.list r.jsx, [], r.st, r.warns⟩
    else
      let st1 := st.inc
      let r := parseInline cfg ts st1
      ⟨Renderer.paragraph cfg r.st.elIdList (Node.list r.jsx), [], r.st, r.warns⟩
  | .text txt sub, st =>
    match sub with
    | some ts =>
      let r := parseInline cfg ts st
      ⟨Node.list r.jsx, [], r.st, r.warns⟩
    | none => ⟨Node.str txt, [], st, []⟩
  | .blockquote ts, st =>
    let r := parse cfg ts st
    let st1 := r.st.inc
    ⟨Renderer.blockquote cfg st1.elIdList (Node.list r.jsx), [], st1, r.warns⟩
  | .listTok ordered start items, st =>
    let r := parseItems cfg items st.push
    let st1 := (r.st.pop).inc
    ⟨Renderer.list cfg st1.elIdList (Node.list r.jsx) ordered
        (if ordered then some start else none),
      [], st1, r.warns⟩
  | .code txt lang, st =>
    let st1 := st.inc
    ⟨Renderer.code cfg st1.elIdList txt lang, [], st1, []⟩
  | .html txt _, st =>
    let st1 := st.inc
    ⟨Renderer.html cfg st1.elIdList txt, [], st1, []⟩
  | .table aligns header rows, st =>
    let hc := tableCells cfg aligns true header 0 st.push
    let st1 := (hc.st.pop).inc
    let headerRow := Renderer.tableRow cfg st1.elIdList (Node.list hc.jsx)
    let st2 := st1.inc
    let headerSection := Renderer.tableHeader cfg st2.elIdList headerRow
    let bc := tableRows cfg aligns rows st2.push
    let st3 := (bc.st.pop).inc
    let bodySection := Renderer.tableBody cfg st3.elIdList (Node.list bc.jsx)
    let st4 := st3.inc
    ⟨Renderer.table cfg st4.elIdList (Node.list [headerSection, bodySection]),
      [], st4, hc.warns ++ bc.warns⟩
  | .hr, st =>
    let st1 := st.inc
    ⟨Renderer.hr cfg st1.elIdList, [], st1, []⟩
  | t, st => ⟨Node.null, [], st, [warnMsg (tokType t)]⟩

/-- The `listToken.items.map(...)` loop of `parse`'s 'list' case: an optional
checkbox for task items, the recursive `parse(item.tokens).jsx` pushed as a
single child, then the `listItem` element.  The nested parse's toc is
discarded by the source (`.jsx`). -/
def parseItems (cfg : Config) : List ListItemTok → St → IRes
  | [], st => ⟨[], st, []⟩
  | .mk task checked ts :: items, st =>
    let c : IRes :=
      if task then
        let st1 := st.inc
        ⟨[Renderer.checkbox cfg st1.elIdList (checked.getD false)], st1, []⟩
      else ⟨[], st, []⟩
    let r := parse cfg ts c.st
    let st2 := r.st.inc
    let node := Renderer.listItem cfg st2.elIdList
      (Node.list (c.jsx ++ [Node.list r.jsx]))
    let rest := parseItems cfg items st2
    ⟨node :: rest.jsx, rest.st, c.warns ++ r.warns ++ rest.warns⟩
end

end Foxmd.Main

namespace Foxmd.V2

/-- Configuration of the part_003/part_001 variant.  `slugize` is a required
injected option of that variant's `createFoxmdParser`; `decode` is the
html-entities collaborator.  `customReactComponentsForHtmlTags` is fixed to
its default `{}` (the embedding models the default rendering strategy), so
`getHtmlTagReplaceReact` resolves every tag to itself. -/
structure Config where
  decode : String → String
  slugize : String → String
  UNSAFE_pickSingleImageChildOutOfParentParagraph : Bool
  suppressHydrationWarning : Bool
  specialImageSizeInTitleOrAlt : Bool
  UNSAFE_allowHtml : Bool

mutual
/-- Modelled from the spec: `tokensToText` is imported from src/utils, which
is not among the provided sources.  Spec section 4.3: the plain-text
extraction "concatenates text-bearing descendant content using kind rules
mirroring the table above but producing strings, not elements, and using a
distinct join separator constant"; the README documents a `skipCodeBlock`
switch.  One token's contribution. -/
def tokensToTextTok (skipCodeBlock : Bool) : Token → String
  | .text txt none => txt
  | .text _ (some ts) => joinSep " " (tokensToTextList skipCodeBlock ts)
  | .codespan txt => txt
  | .code txt _ => if skipCodeBlock then "" else txt
  | .escape txt => txt
  | .strong ts => joinSep " " (tokensToTextList skipCodeBlock ts)
  | .em ts => joinSep " " (tokensToTextList skipCodeBlock ts)
  | .del ts => joinSep " " (tokensToTextList skipCodeBlock ts)
  | .link _ _ ts => joinSep " " (tokensToTextList skipCodeBlock ts)
  | .heading _ ts => joinSep " " (tokensToTextList skipCodeBlock ts)
  | .paragraph ts => joinSep " " (tokensToTextList skipCodeBlock ts)
  | .blockquote ts => joinSep " " (tokensToTextList skipCodeBlock ts)
  | _ => ""

/-- Modelled from the spec: token-wise pieces of `tokensToText`. -/
def tokensToTextList (skipCodeBlock : Bool) : List Token → List String
  | [] => []
  | t :: ts => tokensToTextTok skipCodeBlock t :: tokensToTextList skipCodeBlock ts
end

/-- Modelled from the spec: `tokensToText(tokens, skipCodeBlock)`. -/
def tokensToText (ts : List Token) (skipCodeBlock : Bool) : String :=
  joinSep " " (tokensToTextList skipCodeBlock ts)

namespace Renderer

/-- The internal `h` helper of part_001: props with undefined values are
filtered out, `suppressHydrationWarning` is added when configured, and —
unlike the src/src variant — the `reactKey` argument is never attached to
the created element (`finalProps` is built from `props` only). -/
def h (cfg : Config) (_reactKey : String) (tag : String) (child : Node)
    (props : List (String × String)) : Node :=
  Node.elem tag none cfg.suppressHydrationWarning props child

/-- `heading(reactKey, children, level, id)`. -/
def heading (cfg : Config) (reactKey : String) (child : Node) (level : Nat)
    (id : String) : Node :=
  h cfg reactKey ("h" ++ toString level) child [("id", id)]

/-- `paragraph(reactKey, children)`. -/
def paragraph (cfg : Config) (reactKey : String) (child : Node) : Node :=
  h cfg reactKey "p" child []

/-- `link(reactKey, href, text, title)`: the same unsafe-scheme rewrite as
the src/src variant. -/
def link (cfg : Config) (reactKey : String) (href : String) (text : Node)
    (title : Option String) : Node :=
  let href := if isUnsafeHref href then "" else href
  h cfg reactKey "a" text ([("href", href)] ++ optProp "title" title)

/-- `image(reactKey, src, alt, title)`. -/
def image (cfg : Config) (reactKey : String) (src alt : String)
    (title : Option String) : Node :=
  h cfg reactKey "img" Node.null
    (imageProps cfg.specialImageSizeInTitleOrAlt src alt title)

/-- `codespan(reactKey, code, lang)`. -/
def codespan (cfg : Config) (reactKey : String) (code : String)
    (lang : Option String) : Node :=
  h cfg reactKey "code" (Node.str code) (optProp "className" (codespanClassName lang))

/-- `code(reactKey, code, lang)`: the nested codespan gets the derived key
`reactKey + '-codespan-' + lang`. -/
def code (cfg : Config) (reactKey : String) (codeStr : String)
    (lang : Option String) : Node :=
  let lang := lang.getD ""
  h cfg reactKey "pre" (codespan cfg (reactKey ++ "-codespan-" ++ lang) codeStr (some lang))
    [("data-language", jsToUpper (langLookup lang))]

/-- `blockquote(reactKey, children)`. -/
def blockquote (cfg : Config) (reactKey : String) (child : Node) : Node :=
  h cfg reactKey "blockquote" child []

/-- `list(reactKey, children, ordered, start)`. -/
def list (cfg : Config) (reactKey : String) (child : Node) (ordered : Bool)
    (start : Option Nat) : Node :=
  h cfg reactKey (if ordered then "ol" else "ul") child (listStartProps ordered start)

/-- `listItem(reactKey, children)`. -/
def listItem (cfg : Config) (reactKey : String) (child : Node) : Node :=
  h cfg reactKey "li" child []

/-- `checkbox(reactKey, checked)`. -/
def checkbox (cfg : Config) (reactKey : String) (checked : Bool) : Node :=
  h cfg reactKey "input" Node.null
    [("type", "checkbox"), ("disabled", "true"), ("checked", toString checked)]

/-- `table(reactKey, children)`. -/
def table (cfg : Config) (reactKey : String) (child : Node) : Node :=
  h cfg reactKey "table" child []

/-- `tableHeader(reactKey, children)`. -/
def tableHeader (cfg : Config) (reactKey : String) (child : Node) : Node :=
  h cfg reactKey "thead" child []

/-- `tableBody(reactKey, children)`. -/
def tableBody (cfg : Config) (reactKey : String) (child : Node) : Node :=
  h cfg reactKey "tbody" child []

/-- `tableRow(reactKey, children)`. -/
def tableRow (cfg : Config) (reactKey : String) (child : Node) : Node :=
  h cfg reactKey "tr" child []

/-- `tableCell(reactKey, children, flags)`. -/
def tableCell (cfg : Config) (reactKey : String) (child : Node) (header : Bool)
    (align : Option String) : Node :=
  h cfg reactKey (if header then "th" else "td") child (optProp "align" align)

/-- `strong(reactKey, children)`. -/
def strong (cfg : Config) (reactKey : String) (child : Node) : Node :=
  h cfg reactKey "strong" child []

/-- `em(reactKey, children)`. -/
def em (cfg : Config) (reactKey : String) (child : Node) : Node :=
  h cfg reactKey "em" child []

/-- `del(reactKey, children)`. -/
def del (cfg : Config) (reactKey : String) (child : Node) : Node :=
  h cfg reactKey "del" child []

/-- `text(text)`: returns its argument unchanged (no key parameter). -/
def text (t : String) : Node := Node.str t

/-- `html(reactKey, html)`: with `UNSAFE_allowHtml` the buffered markup is
handed to the out-of-scope `htmlToReact` collaborator together with the
react key (modelled opaquely), otherwise the raw string is returned. -/
def html (cfg : Config) (reactKey : String) (content : String) : Node :=
  if cfg.UNSAFE_allowHtml then Node.htmlEmbed reactKey content
  else Node.str content

/-- `hr(reactKey)`. -/
def hr (cfg : Config) (reactKey : String) : Node := h cfg reactKey "hr" Node.null []

/-- `br(reactKey)`. -/
def br (cfg : Config) (reactKey : String) : Node := h cfg reactKey "br" Node.null []

end Renderer

/-- Result of one part_003 `parseInline`/`parse` jsx computation: jsx, the
parser-closure `elIdList`, toc, and warnings (`toc` is `[]` for inline). -/
structure Res where
  jsx : List Node
  toc : List TocEntry
  elIdList : List Nat
  warns : List String

/-- Walker state of one `tokens.map(...)` pass: the invocation-local
`inRawBlock` flag and `bufferedRawBlockToken` accumulator travel with the
element-id stack. -/
structure WRes where
  jsx : List Node
  toc : List TocEntry
  elIdList : List Nat
  raw : Bool
  buf : String
  warns : List String

/-- Result of one token dispatch step inside a walker. -/
structure WNRes where
  node : Node
  toc : List TocEntry
  elIdList : List Nat
  raw : Bool
  buf : String
  warns : List String

mutual
/-- `parseInline(tokens)` of part_003: push a fresh counter, initialise the
invocation-local raw-block state (`inRawBlock = false`, empty buffer), walk,
pop.  An unflushed buffer is discarded when the walk ends. -/
def parseInline (cfg : Config) (tokens : List Token) (el : List Nat) : Res :=
  let r := parseInlineTokens cfg tokens (el ++ [0]) false ""
  ⟨r.jsx, [], r.elIdList.dropLast, r.warns⟩

/-- The `tokens.map(...)` walk of part_003 `parseInline`. -/
def parseInlineTokens (cfg : Config) :
    List Token → List Nat → Bool → String → WRes
  | [], el, raw, buf => ⟨[], [], el, raw, buf, []⟩
  | t :: ts, el, raw, buf =>
    let r1 := parseInlineTok cfg t el raw buf
    let r2 := parseInlineTokens cfg ts r1.elIdList r1.raw r1.buf
    ⟨r1.node :: r2.jsx, [], r2.elIdList, r2.raw, r2.buf, r1.warns ++ r2.warns⟩

/-- One dispatch step of part_003 `parseInline`'s `switch (token.type)`.
`getReactKey()` is evaluated (argument order) before the recursive
`parseInline` call of the same renderer invocation. -/
def parseInlineTok (cfg : Config) :
    Token → List Nat → Bool → String → WNRes
  | .text txt _, el, raw, buf =>
    if raw then ⟨Node.null, [], el, raw, buf ++ txt, []⟩
    else
      let el1 := incLast el
      ⟨Renderer.text (cfg.decode txt), [], el1, raw, buf, []⟩
  | .strong ts, el, raw, buf =>
    let el1 := incLast el
    let key := getElementId el1
    let r := parseInline cfg ts el1
    ⟨Renderer.strong cfg key (Node.list r.jsx), [], r.elIdList, raw, buf, r.warns⟩
  | .em ts, el, raw, buf =>
    let el1 := incLast el
    let key := getElementId el1
    let r := parseInline cfg ts el1
    ⟨Renderer.em cfg key (Node.list r.jsx), [], r.elIdList, raw, buf, r.warns⟩
  | .del ts, el, raw, buf =>
    let el1 := incLast el
    let key := getElementId el1
    let r := parseInline cfg ts el1
    ⟨Renderer.del cfg key (Node.list r.jsx), [], r.elIdList, raw, buf, r.warns⟩
  | .codespan txt, el, raw, buf =>
    let el1 := incLast el
    ⟨Renderer.codespan cfg (getElementId el1) (cfg.decode txt) none, [], el1, raw, buf, []⟩
  | .link href title ts, el, raw, buf =>
    let el1 := incLast el
    let key := getElementId el1
    let r := parseInline cfg ts el1
    ⟨Renderer.link cfg key href (Node.list r.jsx) title, [], r.elIdList, raw, buf, r.warns⟩
  | .image href txt title, el, raw, buf =>
    let el1 := incLast el
    ⟨Renderer.image cfg (getElementId el1) href txt title, [], el1, raw, buf, []⟩
  | .html txt irb, el, raw, buf =>
    let raw1 := match irb with | some b => b | none => raw
    if raw1 then ⟨Node.null, [], el, raw1, buf ++ txt, []⟩
    else
      let el1 := incLast el
      let node := Renderer.html cfg (getElementId el1) buf
      ⟨node, [], el1, raw1, "", []⟩
  | .br, el, raw, buf =>
    let el1 := incLast el
    ⟨Renderer.br cfg (getElementId el1), [], el1, raw, buf, []⟩
  | .escape txt, el, raw, buf =>
    let el1 := incLast el
    ⟨Renderer.text txt, [], el1, raw, buf, []⟩
  | t, el, raw, buf => ⟨Node.null, [], el, raw, buf, [warnMsg (tokType t)]⟩
end

/-- The header/body cell loops of part_003 `parse`'s 'table' case: unlike the
src/src variant, `incrementElId()` runs before every `tableCell`. -/
def tableCells (cfg : Config) (aligns : List (Option String)) (header : Bool) :
    List TableCellTok → Nat → List Nat → Res
  | [], _, el => ⟨[], [], el, []⟩
  | .mk ts :: cells, idx, el =>
    let el1 := incLast el
    let key := getElementId el1
    let r := parseInline cfg ts el1
    let node := Renderer.tableCell cfg key (Node.list r.jsx) header
      (aligns.getD idx none)
    let rest := tableCells cfg aligns header cells (idx + 1) r.elIdList
    ⟨node :: rest.jsx, [], rest.elIdList, r.warns ++ rest.warns⟩

/-- The body-row loop of part_003 `parse`'s 'table' case. -/
def tableRows (cfg : Config) (aligns : List (Option String)) :
    List (List TableCellTok) → List Nat → Res
  | [], el => ⟨[], [], el, []⟩
  | row :: rows, el =>
    let cells := tableCells cfg aligns false row 0 (el ++ [0])
    let el1 := incLast (cells.elIdList.dropLast)
    let node := Renderer.tableRow cfg (getElementId el1) (Node.list cells.jsx)
    let rest := tableRows cfg aligns rows el1
    ⟨node :: rest.jsx, [], rest.elIdList, cells.warns ++ rest.warns⟩

mutual
/-- `parse(tokens)` of part_003: push a fresh counter, initialise the
invocation-local raw-block state, walk collecting `tocObj`, pop. -/
def parse (cfg : Config) (tokens : List Token) (el : List Nat) : Res :=
  let r := parseTokens cfg tokens (el ++ [0]) false ""
  ⟨r.jsx, r.toc, r.elIdList.dropLast, r.warns⟩

/-- The `tokens.map(...)` walk of part_003 `parse`. -/
def parseTokens (cfg : Config) :
    List Token → List Nat → Bool → String → WRes
  | [], el, raw, buf => ⟨[], [], el, raw, buf, []⟩
  | t :: ts, el, raw, buf =>
    let r1 := parseTok cfg t el raw buf
    let r2 := parseTokens cfg ts r1.elIdList r1.raw r1.buf
    ⟨r1.node :: r2.jsx, r1.toc ++ r2.toc, r2.elIdList, r2.raw, r2.buf,
      r1.warns ++ r2.warns⟩

/-- One dispatch step of part_003 `parse`'s `switch (token.type)`. -/
def parseTok (cfg : Config) :
    Token → List Nat → Bool → String → WNRes
  | .space, el, raw, buf => ⟨Node.str " ", [], el, raw, buf, []⟩
  | .heading depth ts, el, raw, buf =>
    let text := tokensToText ts true
    let id := cfg.slugize text
    let el1 := incLast el
    let key := getElementId el1
    let r := parseInline cfg ts el1
    ⟨Renderer.heading cfg key (Node.list r.jsx) depth id,
      [⟨text, id, depth⟩], r.elIdList, raw, buf, r.warns⟩
  | .paragraph ts, el, raw, buf =>
    if cfg.UNSAFE_pickSingleImageChildOutOfParentParagraph && isSingleImage ts then
      let r := parseInline cfg ts el
      ⟨Node.list r.jsx, [], r.elIdList, raw, buf, r.warns⟩
    else
      let el1 := incLast el
      let key := getElementId el1
      let r := parseInline cfg ts el1
      ⟨Renderer.paragraph cfg key (Node.list r.jsx), [], r.elIdList, raw, buf, r.warns⟩
  | .text txt sub, el, raw, buf =>
    if raw then ⟨Node.null, [], el, raw, buf ++ txt, []⟩
    else
      match sub with
      | some ts =>
        let r := parseInline cfg ts el
        ⟨Node.list r.jsx, [], r.elIdList, raw, buf, r.warns⟩
      | none => ⟨Node.str (cfg.decode txt), [], el, raw, buf, []⟩
  | .blockquote ts, el, raw, buf =>
    let r := parse cfg ts el
    let el1 := incLast r.elIdList
    ⟨Renderer.blockquote cfg (getElementId el1) (Node.list r.jsx), [], el1,
      raw, buf, r.warns⟩
  | .listTok ordered start items, el, raw, buf =>
    let r := parseItems cfg items (el ++ [0])
    let el1 := incLast (r.elIdList.dropLast)
    ⟨Renderer.list cfg (getElementId el1) (Node.list r.jsx) ordered
        (if ordered then some start else none),
      [], el1, raw, buf, r.warns⟩
  | .code txt lang, el, raw, buf =>
    let el1 := incLast el
    ⟨Renderer.code cfg (getElementId el1) txt lang, [], el1, raw, buf, []⟩
  | .html txt irb, el, raw, buf =>
    let raw1 := match irb with | some b => b | none => raw
    if raw1 then ⟨Node.null, [], el, raw1, buf ++ txt, []⟩
    else
      let el1 := incLast el
      let node := Renderer.html cfg (getElementId el1) buf
      ⟨node, [], el1, raw1, "", []⟩
  | .table aligns header rows, el, raw, buf =>
    let hc := tableCells cfg aligns true header 0 (el ++ [0])
    let el1 := incLast (hc.elIdList.dropLast)
    let headerRow := Renderer.tableRow cfg (getElementId el1) (Node.list hc.jsx)
    let el2 := incLast el1
    let headerSection := Renderer.tableHeader cfg (getElementId el2) headerRow
    let bc := tableRows cfg aligns rows (el2 ++ [0])
    let el3 := incLast (bc.elIdList.dropLast)
    let bodySection := Renderer.tableBody cfg (getElementId el3) (Node.list bc.jsx)
    let el4 := incLast el3
    ⟨Renderer.table cfg (getElementId el4) (Node.list [headerSection, bodySection]),
      [], el4, raw, buf, hc.warns ++ bc.warns⟩
  | .hr, el, raw, buf =>
    let el1 := incLast el
    ⟨Renderer.hr cfg (getElementId el1), [], el1, raw, buf, []⟩
  | t, el, raw, buf => ⟨Node.null, [], el, raw, buf, [warnMsg (tokType t)]⟩

/-- The `listToken.items.map(...)` loop of part_003 `parse`'s 'list' case. -/
def parseItems (cfg : Config) : List ListItemTok → List Nat → Res
  | [], el => ⟨[], [], el, []⟩
  | .mk task checked ts :: items, el =>
    let c : Res :=
      if task then
        let el1 := incLast el
        ⟨[Renderer.checkbox cfg (getElementId el1) (checked.getD false)], [], el1, []⟩
      else ⟨[], [], el, []⟩
    let r := parse cfg ts c.elIdList
    let el2 := incLast r.elIdList
    let node := Renderer.listItem cfg (getElementId el2)
      (Node.list (c.jsx ++ [Node.list r.jsx]))
    let rest := parseItems cfg items el2
    ⟨node :: rest.jsx, [], rest.elIdList, c.warns ++ r.warns ++ rest.warns⟩
end

end Foxmd.V2

namespace Foxmd

/-- Concrete src/src configuration for the demonstrations, with the source
defaults (pick=false, shw=false, special=true, allowHtml=false).  The
external `decode` and `slugize` collaborators are instantiated with the
identity function: the demonstration inputs contain no HTML entities and
are already slug-shaped, so the collaborators act as the identity on them. -/
def demoConfig : Main.Config :=
  ⟨fun s => s, fun s => s, false, false, true, false⟩

/-- `demoConfig` with `UNSAFE_pickSingleImageChildOutOfParentParagraph`. -/
def demoConfigPick : Main.Config :=
  ⟨fun s => s, fun s => s, true, false, true, false⟩

/-- Concrete part_003/part_001 configuration (same conventions). -/
def demoConfig2 : V2.Config :=
  ⟨fun s => s, fun s => s, false, false, true, false⟩

/-- `demoConfig2` with the UNSAFE single-image-unwrap flag. -/
def demoConfigPick2 : V2.Config :=
  ⟨fun s => s, fun s => s, true, false, true, false⟩

/-- The state of a freshly created src/src parser: empty `elIdList`, empty
`headingIds` map. -/
def st0 : Main.St := ⟨[], []⟩

/-- A table token with two header cells (each with empty inline content) and
no body rows — e.g. the GFM table `| | |` over `|---|---|`. -/
def demoTable : Token :=
  Token.table [none, none] [TableCellTok.mk [], TableCellTok.mk []] []

/-- A heading token whose inline content is the plain text "intro". -/
def demoHeading : Token := Token.heading 1 [Token.text "intro" none]

end Foxmd

/-! ## Supporting lemmas: the element-identity counter stack -/

namespace Foxmd

theorem incLast_length (xs : List Nat) : (incLast xs).length = xs.length := by
  induction xs with
  | nil => rfl
  | cons x xs ih =>
    cases xs with
    | nil => rfl
    | cons y ys => simpa [incLast] using ih

theorem incLast_dropLast (xs : List Nat) : (incLast xs).dropLast = xs.dropLast := by
  induction xs with
  | nil => rfl
  | cons x xs ih =>
    cases xs with
    | nil => rfl
    | cons y ys =>
      simp only [incLast]
      rw [List.dropLast_cons_of_ne_nil, List.dropLast_cons_of_ne_nil]
      · simp only [List.cons.injEq, true_and]; exact ih
      · simp
      · intro hc
        have := congrArg List.length hc
        simp [incLast_length] at this

theorem incLast_concat (xs : List Nat) (n : Nat) :
    incLast (xs ++ [n]) = xs ++ [n + 1] := by
  induction xs with
  | nil => rfl
  | cons x xs ih =>
    cases xs with
    | nil => simp [incLast]
    | cons y ys => simpa [incLast] using ih

/-- Identity-stack frame relation: same depth, same outer counters.  Every
walker step of the transcribers preserves it, and a balanced push/walk/pop
around it restores the stack exactly. -/
def FrEl (a b : List Nat) : Prop := a.length = b.length ∧ a.dropLast = b.dropLast

theorem frEl_rfl {a : List Nat} : FrEl a a := ⟨Eq.refl _, Eq.refl _⟩

theorem frEl_trans {a b c : List Nat} (h1 : FrEl a b) (h2 : FrEl b c) : FrEl a c :=
  ⟨h1.1.trans h2.1, h1.2.trans h2.2⟩

theorem frEl_incLast (l : List Nat) : FrEl (incLast l) l :=
  ⟨incLast_length l, incLast_dropLast l⟩

theorem frEl_of_eq {a b : List Nat} (h : a = b) : FrEl a b := h ▸ frEl_rfl

/-- A balanced push/walk/pop restores the stack exactly. -/
theorem popAfter_push {a l : List Nat} (h : FrEl a (l ++ [0])) :
    a.dropLast = l := by
  have h2 := h.2
  rwa [List.dropLast_concat] at h2

@[simp] theorem Main.St.push_elIdList (st : Main.St) :
    st.push.elIdList = st.elIdList ++ [0] := rfl

@[simp] theorem Main.St.pop_elIdList (st : Main.St) :
    st.pop.elIdList = st.elIdList.dropLast := rfl

@[simp] theorem Main.St.inc_elIdList (st : Main.St) :
    st.inc.elIdList = incLast st.elIdList := rfl

@[simp] theorem Main.St.push_headingIds (st : Main.St) :
    st.push.headingIds = st.headingIds := rfl

@[simp] theorem Main.St.pop_headingIds (st : Main.St) :
    st.pop.headingIds = st.headingIds := rfl

@[simp] theorem Main.St.inc_headingIds (st : Main.St) :
    st.inc.headingIds = st.headingIds := rfl

/-! ## Frame property of the src/src inline transcriber -/

/-- Joint frame property of the src/src `parseInline` family: the wrapper
restores `elIdList` exactly; the walker and the per-token dispatch preserve
its depth and its outer counters. -/
theorem Main.inlineWalk_frame (cfg : Main.Config) (ts0 : List Token) (st0 : Main.St) :
    FrEl (Main.parseInlineTokens cfg ts0 st0).st.elIdList st0.elIdList := by
  induction ts0, st0 using Main.parseInlineTokens.induct cfg with
  | motive1 ts st => exact (Main.parseInline cfg ts st).st.elIdList = st.elIdList
  | motive3 t st => exact FrEl (Main.parseInlineTok cfg t st).st.elIdList st.elIdList
  | case1 ts st ih =>
    simp only [Main.parseInline, Main.St.pop_elIdList]
    exact popAfter_push ih
  | case2 st => simp only [Main.parseInlineTokens]; exact frEl_rfl
  | case3 t ts st r1 ih1 ih2 =>
    simp only [Main.parseInlineTokens]
    exact frEl_trans ih2 ih1
  | case4 txt tokens st => simp only [Main.parseInlineTok]; exact frEl_incLast _
  | case5 ts st st1 ih =>
    have ih2 : (Main.parseInline cfg ts (Main.St.inc st)).st.elIdList
        = (Main.St.inc st).elIdList := ih
    simp only [Main.parseInlineTok, ih2, Main.St.inc_elIdList]
    exact frEl_incLast _
  | case6 ts st st1 ih =>
    have ih2 : (Main.parseInline cfg ts (Main.St.inc st)).st.elIdList
        = (Main.St.inc st).elIdList := ih
    simp only [Main.parseInlineTok, ih2, Main.St.inc_elIdList]
    exact frEl_incLast _
  | case7 ts st st1 ih =>
    have ih2 : (Main.parseInline cfg ts (Main.St.inc st)).st.elIdList
        = (Main.St.inc st).elIdList := ih
    simp only [Main.parseInlineTok, ih2, Main.St.inc_elIdList]
    exact frEl_incLast _
  | case8 txt st => simp only [Main.parseInlineTok]; exact frEl_incLast _
  | case9 href title ts st st1 ih =>
    have ih2 : (Main.parseInline cfg ts (Main.St.inc st)).st.elIdList
        = (Main.St.inc st).elIdList := ih
    simp only [Main.parseInlineTok, ih2, Main.St.inc_elIdList]
    exact frEl_incLast _
  | case10 href txt title st => simp only [Main.parseInlineTok]; exact frEl_incLast _
  | case11 txt irb st => simp only [Main.parseInlineTok]; exact frEl_incLast _
  | case12 st => simp only [Main.parseInlineTok]; exact frEl_incLast _
  | case13 txt st => simp only [Main.parseInlineTok]; exact frEl_incLast _
  | case14 t st h1 h2 h3 h4 h5 h6 h7 h8 h9 h10 =>
    cases t with
    | text a b => exact (h1 a b rfl).elim
    | strong a => exact (h2 a rfl).elim
    | em a => exact (h3 a rfl).elim
    | del a => exact (h4 a rfl).elim
    | codespan a => exact (h5 a rfl).elim
    | link a b c => exact (h6 a b c rfl).elim
    | image a b c => exact (h7 a b c rfl).elim
    | html a b => exact (h8 a b rfl).elim
    | br => exact (h9 rfl).elim
    | escape a => exact (h10 a rfl).elim
    | space => simp only [Main.parseInlineTok]; exact frEl_rfl
    | heading a b => simp only [Main.parseInlineTok]; exact frEl_rfl
    | paragraph a => simp only [Main.parseInlineTok]; exact frEl_rfl
    | blockquote a => simp only [Main.parseInlineTok]; exact frEl_rfl
    | listTok a b c => simp only [Main.parseInlineTok]; exact frEl_rfl
    | code a b => simp only [Main.parseInlineTok]; exact frEl_rfl
    | table a b c => simp only [Main.parseInlineTok]; exact frEl_rfl
    | hr => simp only [Main.parseInlineTok]; exact frEl_rfl
    | unknown a => simp only [Main.parseInlineTok]; exact frEl_rfl

/-- The src/src `parseInline` restores `elIdList` exactly. -/
theorem Main.parseInline_elIdList (cfg : Main.Config) (ts : List Token)
    (st : Main.St) :
    (Main.parseInline cfg ts st).st.elIdList = st.elIdList := by
  simp only [Main.parseInline, Main.St.pop_elIdList]
  have h := Main.inlineWalk_frame cfg ts st.push
  exact popAfter_push (by simpa using h)

end Foxmd

namespace Foxmd

theorem frEl_incLast_of {a b : List Nat} (h : FrEl a b) : FrEl (incLast a) b :=
  frEl_trans (frEl_incLast a) h

/-! ## Frame property of the src/src block transcriber -/

/-- The src/src table-cell loop leaves `elIdList` untouched (it never calls
`incrementElId`, and `parseInline` restores the stack). -/
theorem Main.tableCells_elIdList (cfg : Main.Config) (aligns : List (Option String))
    (header : Bool) (cells : List TableCellTok) :
    ∀ (idx : Nat) (st : Main.St),
      (Main.tableCells cfg aligns header cells idx st).st.elIdList = st.elIdList := by
  induction cells with
  | nil => intro idx st; simp [Main.tableCells]
  | cons c cells ih =>
    intro idx st
    cases c with
    | mk ts =>
      simp only [Main.tableCells, ih, Main.parseInline_elIdList]

/-- The src/src body-row loop preserves the identity-stack frame (one
`incrementElId` per row, inside a balanced push/pop per row). -/
theorem Main.tableRows_frame (cfg : Main.Config) (aligns : List (Option String))
    (rows : List (List TableCellTok)) :
    ∀ (st : Main.St),
      FrEl (Main.tableRows cfg aligns rows st).st.elIdList st.elIdList := by
  induction rows with
  | nil => intro st; simp only [Main.tableRows]; exact frEl_rfl
  | cons row rows ih =>
    intro st
    simp only [Main.tableRows]
    refine frEl_trans (ih _) ?_
    rw [Main.St.inc_elIdList, Main.St.pop_elIdList, Main.tableCells_elIdList,
      Main.St.push_elIdList, List.dropLast_concat]
    exact frEl_incLast _

/-- Specialisation of the row-loop frame: a balanced push around the body
rows restores the stack below the pushed counter. -/
theorem Main.tableRows_popAfter (cfg : Main.Config) (aligns : List (Option String))
    (rows : List (List TableCellTok)) (w : Main.St) :
    (Main.tableRows cfg aligns rows w.push).st.elIdList.dropLast = w.elIdList :=
  popAfter_push (Main.tableRows_frame cfg aligns rows w.push)

/-- Joint frame property of the src/src `parse` family. -/
theorem Main.blockWalk_frame (cfg : Main.Config) (ts0 : List Token) (st0 : Main.St) :
    FrEl (Main.parseTokens cfg ts0 st0).st.elIdList st0.elIdList := by
  induction ts0, st0 using Main.parseTokens.induct cfg with
  | motive1 ts st => exact (Main.parse cfg ts st).st.elIdList = st.elIdList
  | motive3 t st => exact FrEl (Main.parseTok cfg t st).st.elIdList st.elIdList
  | motive4 items st => exact FrEl (Main.parseItems cfg items st).st.elIdList st.elIdList
  | case1 ts st ih =>
    simp only [Main.parse, Main.St.pop_elIdList]
    exact popAfter_push ih
  | case2 st => simp only [Main.parseTokens]; exact frEl_rfl
  | case3 t ts st r1 ih1 ih2 =>
    simp only [Main.parseTokens]
    exact frEl_trans ih2 ih1
  | case4 st => simp only [Main.parseTok]; exact frEl_rfl
  | case5 depth ts st =>
    simp only [Main.parseTok, Main.parseInline_elIdList, Main.St.inc_elIdList]
    exact frEl_incLast _
  | case6 ts st hpick =>
    simp [Main.parseTok, hpick, Main.parseInline_elIdList]
    exact frEl_rfl
  | case7 ts st hpick =>
    simp [Main.parseTok, hpick, Main.parseInline_elIdList]
    exact frEl_incLast _
  | case8 txt st ts =>
    simp only [Main.parseTok, Main.parseInline_elIdList]
    exact frEl_rfl
  | case9 txt st => simp only [Main.parseTok]; exact frEl_rfl
  | case10 ts st ih =>
    simp only [Main.parseTok, Main.St.inc_elIdList, ih]
    exact frEl_incLast _
  | case11 ordered start items st ih =>
    simp only [Main.parseTok, Main.St.inc_elIdList, Main.St.pop_elIdList]
    have hdrop : (Main.parseItems cfg items st.push).st.elIdList.dropLast
        = st.elIdList := popAfter_push ih
    rw [hdrop]
    exact frEl_incLast _
  | case12 txt lang st => simp only [Main.parseTok]; exact frEl_incLast _
  | case13 txt irb st => simp only [Main.parseTok]; exact frEl_incLast _
  | case14 aligns header rows st =>
    simp only [Main.parseTok, Main.St.pop_elIdList, Main.St.inc_elIdList,
      Main.tableRows_popAfter, Main.tableCells_elIdList, Main.St.push_elIdList,
      List.dropLast_concat]
    exact frEl_incLast_of (frEl_incLast_of (frEl_incLast_of (frEl_incLast _)))
  | case15 st => simp only [Main.parseTok]; exact frEl_incLast _
  | case16 t st h1 h2 h3 h4 h5 h6 h7 h8 h9 h10 =>
    cases t with
    | space => exact (h1 rfl).elim
    | heading a b => exact (h2 a b rfl).elim
    | paragraph a => exact (h3 a rfl).elim
    | text a b => exact (h4 a b rfl).elim
    | blockquote a => exact (h5 a rfl).elim
    | listTok a b c => exact (h6 a b c rfl).elim
    | code a b => exact (h7 a b rfl).elim
    | html a b => exact (h8 a b rfl).elim
    | table a b c => exact (h9 a b c rfl).elim
    | hr => exact (h10 rfl).elim
    | strong a => simp only [Main.parseTok]; exact frEl_rfl
    | em a => simp only [Main.parseTok]; exact frEl_rfl
    | del a => simp only [Main.parseTok]; exact frEl_rfl
    | codespan a => simp only [Main.parseTok]; exact frEl_rfl
    | link a b c => simp only [Main.parseTok]; exact frEl_rfl
    | image a b c => simp only [Main.parseTok]; exact frEl_rfl
    | br => simp only [Main.parseTok]; exact frEl_rfl
    | escape a => simp only [Main.parseTok]; exact frEl_rfl
    | unknown a => simp only [Main.parseTok]; exact frEl_rfl
  | case17 st => simp only [Main.parseItems]; exact frEl_rfl
  | case18 task checked ts items st c r st2 ih1 ih2 ih3 =>
    simp only [Main.parseItems]
    show FrEl (Main.parseItems cfg items st2).st.elIdList st.elIdList
    refine frEl_trans ih3 ?_
    have hr : r.st.elIdList = c.st.elIdList := ih1
    have h2 : st2.elIdList = incLast c.st.elIdList := by
      show (Main.St.inc r.st).elIdList = incLast c.st.elIdList
      rw [Main.St.inc_elIdList, hr]
    rw [h2]
    refine frEl_incLast_of ?_
    cases task with
    | true => exact frEl_incLast _
    | false => exact frEl_rfl

end Foxmd

namespace Foxmd

/-- The src/src `parse` restores `elIdList` exactly. -/
theorem Main.parse_elIdList (cfg : Main.Config) (ts : List Token) (st : Main.St) :
    (Main.parse cfg ts st).st.elIdList = st.elIdList := by
  simp only [Main.parse, Main.St.pop_elIdList]
  exact popAfter_push (Main.blockWalk_frame cfg ts st.push)

end Foxmd

/-! ## Frame property of the part_003 transcriber -/

namespace Foxmd

/-- Joint frame property of the part_003 `parseInline` family. -/
theorem V2.inlineWalk_frame2 (cfg : V2.Config) (ts0 : List Token) (el0 : List Nat)
    (raw0 : Bool) (buf0 : String) :
    FrEl (V2.parseInlineTokens cfg ts0 el0 raw0 buf0).elIdList el0 := by
  induction ts0, el0, raw0, buf0 using V2.parseInlineTokens.induct cfg with
  | motive1 ts el => exact (V2.parseInline cfg ts el).elIdList = el
  | motive3 t el raw buf =>
    exact FrEl (V2.parseInlineTok cfg t el raw buf).elIdList el
  | case1 ts el ih =>
    simp only [V2.parseInline]
    exact popAfter_push ih
  | case2 el raw buf => simp only [V2.parseInlineTokens]; exact frEl_rfl
  | case3 t ts el raw buf r1 ih1 ih2 =>
    simp only [V2.parseInlineTokens]
    exact frEl_trans ih2 ih1
  | case4 txt tokens el buf =>
    simp [V2.parseInlineTok]
    exact frEl_rfl
  | case5 txt tokens el raw buf hraw =>
    simp [V2.parseInlineTok, hraw]
    exact frEl_incLast _
  | case6 ts el raw buf el1 ih =>
    have ih2 : (V2.parseInline cfg ts (incLast el)).elIdList = incLast el := ih
    simp only [V2.parseInlineTok, ih2]
    exact frEl_incLast _
  | case7 ts el raw buf el1 ih =>
    have ih2 : (V2.parseInline cfg ts (incLast el)).elIdList = incLast el := ih
    simp only [V2.parseInlineTok, ih2]
    exact frEl_incLast _
  | case8 ts el raw buf el1 ih =>
    have ih2 : (V2.parseInline cfg ts (incLast el)).elIdList = incLast el := ih
    simp only [V2.parseInlineTok, ih2]
    exact frEl_incLast _
  | case9 txt el raw buf => simp only [V2.parseInlineTok]; exact frEl_incLast _
  | case10 href title ts el raw buf el1 ih =>
    have ih2 : (V2.parseInline cfg ts (incLast el)).elIdList = incLast el := ih
    simp only [V2.parseInlineTok, ih2]
    exact frEl_incLast _
  | case11 href txt title el raw buf =>
    simp only [V2.parseInlineTok]; exact frEl_incLast _
  | case12 txt irb el raw buf raw1 hraw =>
    have hraw2 : (match irb with | some b => b | none => raw) = true := hraw
    rw [V2.parseInlineTok.eq_def]
    simp [hraw2]
    exact frEl_rfl
  | case13 txt irb el raw buf raw1 hraw =>
    have hraw2 : ¬ (match irb with | some b => b | none => raw) = true := hraw
    rw [V2.parseInlineTok.eq_def]
    simp [hraw2]
    exact frEl_incLast _
  | case14 el raw buf => simp only [V2.parseInlineTok]; exact frEl_incLast _
  | case15 txt el raw buf => simp only [V2.parseInlineTok]; exact frEl_incLast _
  | case16 t el raw buf h1 h2 h3 h4 h5 h6 h7 h8 h9 h10 =>
    cases t with
    | text a b => exact (h1 a b rfl).elim
    | strong a => exact (h2 a rfl).elim
    | em a => exact (h3 a rfl).elim
    | del a => exact (h4 a rfl).elim
    | codespan a => exact (h5 a rfl).elim
    | link a b c => exact (h6 a b c rfl).elim
    | image a b c => exact (h7 a b c rfl).elim
    | html a b => exact (h8 a b rfl).elim
    | br => exact (h9 rfl).elim
    | escape a => exact (h10 a rfl).elim
    | space => simp only [V2.parseInlineTok]; exact frEl_rfl
    | heading a b => simp only [V2.parseInlineTok]; exact frEl_rfl
    | paragraph a => simp only [V2.parseInlineTok]; exact frEl_rfl
    | blockquote a => simp only [V2.parseInlineTok]; exact frEl_rfl
    | listTok a b c => simp only [V2.parseInlineTok]; exact frEl_rfl
    | code a b => simp only [V2.parseInlineTok]; exact frEl_rfl
    | table a b c => simp only [V2.parseInlineTok]; exact frEl_rfl
    | hr => simp only [V2.parseInlineTok]; exact frEl_rfl
    | unknown a => simp only [V2.parseInlineTok]; exact frEl_rfl

/-- The part_003 `parseInline` restores `elIdList` exactly. -/
theorem V2.parseInline_elIdList2 (cfg : V2.Config) (ts : List Token) (el : List Nat) :
    (V2.parseInline cfg ts el).elIdList = el := by
  simp only [V2.parseInline]
  exact popAfter_push (V2.inlineWalk_frame2 cfg ts (el ++ [0]) false "")

/-- The part_003 cell loop preserves the identity-stack frame (one
`incrementElId` per cell). -/
theorem V2.tableCells_frame (cfg : V2.Config) (aligns : List (Option String))
    (header : Bool) (cells : List TableCellTok) :
    ∀ (idx : Nat) (el : List Nat),
      FrEl (V2.tableCells cfg aligns header cells idx el).elIdList el := by
  induction cells with
  | nil => intro idx el; simp only [V2.tableCells]; exact frEl_rfl
  | cons c cells ih =>
    intro idx el
    cases c with
    | mk ts =>
      simp only [V2.tableCells, V2.parseInline_elIdList2]
      exact frEl_trans (ih _ _) (frEl_incLast _)

/-- A balanced push around the part_003 cell loop restores the stack. -/
theorem V2.tableCells_popAfter (cfg : V2.Config) (aligns : List (Option String))
    (header : Bool) (cells : List TableCellTok) (idx : Nat) (w : List Nat) :
    (V2.tableCells cfg aligns header cells idx (w ++ [0])).elIdList.dropLast = w :=
  popAfter_push (V2.tableCells_frame cfg aligns header cells idx (w ++ [0]))

/-- The part_003 body-row loop preserves the identity-stack frame. -/
theorem V2.tableRows_frame2 (cfg : V2.Config) (aligns : List (Option String))
    (rows : List (List TableCellTok)) :
    ∀ (el : List Nat),
      FrEl (V2.tableRows cfg aligns rows el).elIdList el := by
  induction rows with
  | nil => intro el; simp only [V2.tableRows]; exact frEl_rfl
  | cons row rows ih =>
    intro el
    simp only [V2.tableRows, V2.tableCells_popAfter]
    exact frEl_trans (ih _) (frEl_incLast _)

/-- A balanced push around the part_003 row loop restores the stack. -/
theorem V2.tableRows_popAfter2 (cfg : V2.Config) (aligns : List (Option String))
    (rows : List (List TableCellTok)) (w : List Nat) :
    (V2.tableRows cfg aligns rows (w ++ [0])).elIdList.dropLast = w :=
  popAfter_push (V2.tableRows_frame2 cfg aligns rows (w ++ [0]))

/-- Joint frame property of the part_003 `parse` family. -/
theorem V2.blockWalk_frame2 (cfg : V2.Config) (ts0 : List Token) (el0 : List Nat)
    (raw0 : Bool) (buf0 : String) :
    FrEl (V2.parseTokens cfg ts0 el0 raw0 buf0).elIdList el0 := by
  induction ts0, el0, raw0, buf0 using V2.parseTokens.induct cfg with
  | motive1 ts el => exact (V2.parse cfg ts el).elIdList = el
  | motive3 t el raw buf => exact FrEl (V2.parseTok cfg t el raw buf).elIdList el
  | motive4 items el => exact FrEl (V2.parseItems cfg items el).elIdList el
  | case1 ts el ih =>
    simp only [V2.parse]
    exact popAfter_push ih
  | case2 el raw buf => simp only [V2.parseTokens]; exact frEl_rfl
  | case3 t ts el raw buf r1 ih1 ih2 =>
    simp only [V2.parseTokens]
    exact frEl_trans ih2 ih1
  | case4 el raw buf => simp only [V2.parseTok]; exact frEl_rfl
  | case5 depth ts el raw buf =>
    simp only [V2.parseTok, V2.parseInline_elIdList2]
    exact frEl_incLast _
  | case6 ts el raw buf hpick =>
    simp [V2.parseTok, hpick, V2.parseInline_elIdList2]
    exact frEl_rfl
  | case7 ts el raw buf hpick =>
    simp [V2.parseTok, hpick, V2.parseInline_elIdList2]
    exact frEl_incLast _
  | case8 txt sub el buf =>
    rw [V2.parseTok.eq_def]
    simp
    exact frEl_rfl
  | case9 txt el raw buf hraw ts =>
    rw [V2.parseTok.eq_def]
    simp [hraw, V2.parseInline_elIdList2]
    exact frEl_rfl
  | case10 txt el raw buf hraw =>
    simp [V2.parseTok, hraw]
    exact frEl_rfl
  | case11 ts el raw buf ih =>
    simp only [V2.parseTok, ih]
    exact frEl_incLast _
  | case12 ordered start items el raw buf ih =>
    simp only [V2.parseTok]
    have hdrop : (V2.parseItems cfg items (el ++ [0])).elIdList.dropLast = el :=
      popAfter_push ih
    rw [hdrop]
    exact frEl_incLast _
  | case13 txt lang el raw buf => simp only [V2.parseTok]; exact frEl_incLast _
  | case14 txt irb el raw buf raw1 hraw =>
    have hraw2 : (match irb with | some b => b | none => raw) = true := hraw
    rw [V2.parseTok.eq_def]
    simp [hraw2]
    exact frEl_rfl
  | case15 txt irb el raw buf raw1 hraw =>
    have hraw2 : ¬ (match irb with | some b => b | none => raw) = true := hraw
    rw [V2.parseTok.eq_def]
    simp [hraw2]
    exact frEl_incLast _
  | case16 aligns header rows el raw buf =>
    simp only [V2.parseTok, V2.tableCells_popAfter, V2.tableRows_popAfter2]
    exact frEl_incLast_of (frEl_incLast_of (frEl_incLast_of (frEl_incLast _)))
  | case17 el raw buf => simp only [V2.parseTok]; exact frEl_incLast _
  | case18 t el raw buf h1 h2 h3 h4 h5 h6 h7 h8 h9 h10 =>
    cases t with
    | space => exact (h1 rfl).elim
    | heading a b => exact (h2 a b rfl).elim
    | paragraph a => exact (h3 a rfl).elim
    | text a b => exact (h4 a b rfl).elim
    | blockquote a => exact (h5 a rfl).elim
    | listTok a b c => exact (h6 a b c rfl).elim
    | code a b => exact (h7 a b rfl).elim
    | html a b => exact (h8 a b rfl).elim
    | table a b c => exact (h9 a b c rfl).elim
    | hr => exact (h10 rfl).elim
    | strong a => simp only [V2.parseTok]; exact frEl_rfl
    | em a => simp only [V2.parseTok]; exact frEl_rfl
    | del a => simp only [V2.parseTok]; exact frEl_rfl
    | codespan a => simp only [V2.parseTok]; exact frEl_rfl
    | link a b c => simp only [V2.parseTok]; exact frEl_rfl
    | image a b c => simp only [V2.parseTok]; exact frEl_rfl
    | br => simp only [V2.parseTok]; exact frEl_rfl
    | escape a => simp only [V2.parseTok]; exact frEl_rfl
    | unknown a => simp only [V2.parseTok]; exact frEl_rfl
  | case19 el => simp only [V2.parseItems]; exact frEl_rfl
  | case20 task checked ts items el c r el2 ih1 ih2 ih3 =>
    simp only [V2.parseItems]
    show FrEl (V2.parseItems cfg items el2).elIdList el
    refine frEl_trans ih3 ?_
    have hr : r.elIdList = c.elIdList := ih1
    have h2 : el2 = incLast c.elIdList := by
      show incLast r.elIdList = incLast c.elIdList
      rw [hr]
    rw [h2]
    refine frEl_incLast_of ?_
    cases task with
    | true => exact frEl_incLast _
    | false => exact frEl_rfl

/-- The part_003 `parse` restores `elIdList` exactly. -/
theorem V2.parse_elIdList2 (cfg : V2.Config) (ts : List Token) (el : List Nat) :
    (V2.parse cfg ts el).elIdList = el := by
  simp only [V2.parse]
  exact popAfter_push (V2.blockWalk_frame2 cfg ts (el ++ [0]) false "")

end Foxmd

/-! ## Slug-registry lemmas -/

namespace Foxmd

theorem mapHas_nil (k : String) : mapHas [] k = false := rfl

theorem mapSet_of_not_has (m : List (String × Nat)) (k : String) (v : Nat)
    (h : mapHas m k = false) : mapSet m k v = m ++ [(k, v)] := by
  simp [mapSet, h]

theorem mapHas_append_self (m : List (String × Nat)) (k : String) (v : Nat) :
    mapHas (m ++ [(k, v)]) k = true := by
  simp [mapHas, List.any_append]

theorem find?_eq_none_of_not_has (m : List (String × Nat)) (k : String)
    (h : mapHas m k = false) :
    m.find? (fun p => p.1 == k) = none := by
  induction m with
  | nil => rfl
  | cons p m ih =>
    simp only [mapHas, List.any_cons, Bool.or_eq_false_iff] at h
    simp [List.find?, h.1, ih h.2]

theorem mapGet_append_self (m : List (String × Nat)) (k : String) (v : Nat)
    (h : mapHas m k = false) :
    mapGet (m ++ [(k, v)]) k = v := by
  simp [mapGet, List.find?_append, find?_eq_none_of_not_has m k h, List.find?]

theorem map_replace_of_not_has (m : List (String × Nat)) (k : String) (w : Nat)
    (h : mapHas m k = false) :
    m.map (fun p => if p.1 == k then (k, w) else p) = m := by
  induction m with
  | nil => rfl
  | cons p m ih =>
    simp only [mapHas, List.any_cons, Bool.or_eq_false_iff] at h
    simp only [List.map, h.1, Bool.false_eq_true, if_false, List.cons.injEq, true_and]
    exact ih h.2

theorem mapSet_append_self (m : List (String × Nat)) (k : String) (v w : Nat)
    (h : mapHas m k = false) :
    mapSet (m ++ [(k, v)]) k w = m ++ [(k, w)] := by
  simp only [mapSet, mapHas_append_self, if_true, List.map_append]
  rw [map_replace_of_not_has m k w h]
  simp

theorem mapHas_map_replace (m : List (String × Nat)) (s k : String) (v : Nat) :
    mapHas (m.map (fun p => if p.1 == s then (s, v) else p)) k = mapHas m k := by
  induction m with
  | nil => rfl
  | cons p m ih =>
    simp only [mapHas, List.map, List.any_cons] at ih ⊢
    rw [ih]
    by_cases hps : (p.1 == s) = true
    · have hp : p.1 = s := eq_of_beq hps
      simp [hps, hp]
    · simp [hps]

theorem mapHas_mapSet_of_has (m : List (String × Nat)) (s k : String) (v : Nat)
    (h : mapHas m s = true) :
    mapHas (mapSet m s v) k = mapHas m k := by
  simp only [mapSet, h, if_true]
  exact mapHas_map_replace m s k v

theorem registerSlug_fresh (m : List (String × Nat)) (x : String)
    (h : mapHas m x = false) : (registerSlug m x).1 = x := by
  simp [registerSlug, h]

/-! ## Claim theorems -/

/-- C3: three consecutive registrations of the same base slug yield the base
unchanged, then base-2, then base-3: the first occurrence never receives a
numeric suffix, the second becomes base-2 (not base-1). -/
theorem C3_slug_suffix_chain (s : String) (tbl : List (String × Nat))
    (h : mapHas tbl s = false) :
    (registerSlug tbl s).1 = s
    ∧ (registerSlug (registerSlug tbl s).2 s).1 = s ++ "-2"
    ∧ (registerSlug (registerSlug (registerSlug tbl s).2 s).2 s).1 = s ++ "-3" := by
  have e1 : registerSlug tbl s = (s, tbl ++ [(s, 1)]) := by
    simp [registerSlug, h, mapSet_of_not_has tbl s 1 h]
  have e2 : registerSlug (tbl ++ [(s, 1)]) s
      = (s ++ "-" ++ toString 2, tbl ++ [(s, 2)]) := by
    simp [registerSlug, mapHas_append_self, mapGet_append_self tbl s 1 h,
      mapSet_append_self tbl s 1 2 h]
  have e3 : registerSlug (tbl ++ [(s, 2)]) s
      = (s ++ "-" ++ toString 3, tbl ++ [(s, 3)]) := by
    simp [registerSlug, mapHas_append_self, mapGet_append_self tbl s 2 h,
      mapSet_append_self tbl s 2 3 h]
  refine ⟨by rw [e1], ?_, ?_⟩
  · rw [e1, e2]
    rw [String.append_assoc]
    congr 1
  · rw [e1, e2, e3]
    rw [String.append_assoc]
    congr 1

/-- C3 witness: the chain at base slug "intro" over the fresh table. -/
theorem C3_witness :
    (registerSlug [] "intro").1 = "intro"
    ∧ (registerSlug (registerSlug [] "intro").2 "intro").1 = "intro-2"
    ∧ (registerSlug (registerSlug (registerSlug [] "intro").2 "intro").2 "intro").1
        = "intro-3" := by
  have H := C3_slug_suffix_chain "intro" [] rfl
  exact ⟨H.1, H.2.1.trans (by decide), H.2.2.trans (by decide)⟩

/-- C4 counterexample: after two headings with base "intro", the emitted
suffixed slug "intro-2" does not occupy the occurrence table, and a third
heading whose base slug is the literal "intro-2" receives "intro-2" again —
a duplicate of the slug already emitted for the second heading. -/
theorem C4_counterexample :
    (registerSlug (registerSlug [] "intro").2 "intro").1 = "intro-2"
    ∧ mapHas (registerSlug (registerSlug [] "intro").2 "intro").2 "intro-2" = false
    ∧ (registerSlug (registerSlug (registerSlug [] "intro").2 "intro").2 "intro-2").1
        = "intro-2" := by
  decide

/-- C4 amended: when the registry emits a suffixed slug for a colliding base,
that computed value does NOT occupy the occurrence table (only the base's
count is updated — `headingIds.set(id, ...)` runs before `id` is reassigned),
so a later heading whose base slug equals the previously-emitted suffixed
value receives that same slug again rather than a unique one. -/
theorem C4_suffixed_slug_not_in_table (tbl : List (String × Nat)) (s : String)
    (h : mapHas tbl s = true) :
    mapHas (registerSlug tbl s).2 (registerSlug tbl s).1
      = mapHas tbl (registerSlug tbl s).1
    ∧ (mapHas tbl (registerSlug tbl s).1 = false →
        (registerSlug (registerSlug tbl s).2 (registerSlug tbl s).1).1
          = (registerSlug tbl s).1) := by
  have e : registerSlug tbl s
      = (s ++ "-" ++ toString (mapGet tbl s + 1), mapSet tbl s (mapGet tbl s + 1)) := by
    simp [registerSlug, h]
  constructor
  · rw [e]
    exact mapHas_mapSet_of_has tbl s _ _ h
  · intro hfresh
    have h2 : mapHas (registerSlug tbl s).2 (registerSlug tbl s).1 = false := by
      rw [e] at hfresh ⊢
      rw [mapHas_mapSet_of_has tbl s _ _ h]
      exact hfresh
    exact registerSlug_fresh _ _ h2

/-- C4 witness: the amended statement at the concrete table {intro ↦ 1}. -/
theorem C4_witness :
    mapHas (registerSlug [("intro", 1)] "intro").2 (registerSlug [("intro", 1)] "intro").1
      = mapHas [("intro", 1)] (registerSlug [("intro", 1)] "intro").1
    ∧ (mapHas [("intro", 1)] (registerSlug [("intro", 1)] "intro").1 = false →
        (registerSlug (registerSlug [("intro", 1)] "intro").2
            (registerSlug [("intro", 1)] "intro").1).1
          = (registerSlug [("intro", 1)] "intro").1) :=
  C4_suffixed_slug_not_in_table [("intro", 1)] "intro" (by decide)

/-- C10: every call to `parse` or `parseInline` — in both parser variants —
returns the element-identity counter stack `elIdList` exactly as it was at
entry (same length and same counter values), for every input token list, so
nested and repeated invocations never corrupt an enclosing scope's counters. -/
theorem C10_elIdList_restored (cfg : Main.Config) (cfg2 : V2.Config)
    (ts : List Token) (st : Main.St) (el : List Nat) :
    (Main.parse cfg ts st).st.elIdList = st.elIdList
    ∧ (Main.parseInline cfg ts st).st.elIdList = st.elIdList
    ∧ (V2.parse cfg2 ts el).elIdList = el
    ∧ (V2.parseInline cfg2 ts el).elIdList = el :=
  ⟨Main.parse_elIdList cfg ts st, Main.parseInline_elIdList cfg ts st,
    V2.parse_elIdList2 cfg2 ts el, V2.parseInline_elIdList2 cfg2 ts el⟩

end Foxmd

namespace Foxmd

/-- C5 amended: the heading-slug occurrence table lives in the parser
closure (`createFoxmdParser`), not in `parse`: the slug a heading receives is
determined by the table the parser instance carries INTO the call.  A base
slug absent from the carried table is emitted unchanged; a base slug already
present is emitted with the next suffix — also when the earlier occurrence
came from a previous `parse` call of the same parser.  (A fresh table exists
only per `createFoxmdParser`/`foxmd()` invocation, which constructs a new
parser.) -/
theorem C5_heading_table_threading (cfg : Main.Config) (st : Main.St) (d : Nat)
    (ts : List Token) :
    (mapHas st.headingIds (cfg.slugize (Main.getText cfg ts).1) = false →
      (Main.parse cfg [Token.heading d ts] st).toc.map TocEntry.id
        = [cfg.slugize (Main.getText cfg ts).1])
    ∧ (mapHas st.headingIds (cfg.slugize (Main.getText cfg ts).1) = true →
      (Main.parse cfg [Token.heading d ts] st).toc.map TocEntry.id
        = [cfg.slugize (Main.getText cfg ts).1 ++ "-"
            ++ toString (mapGet st.headingIds (cfg.slugize (Main.getText cfg ts).1) + 1)]) := by
  constructor <;> intro h <;>
    simp [Main.parse, Main.parseTokens, Main.parseTok, registerSlug, h]

/-- C5 counterexample: two successive `parse` calls on the same parser state
over the identical heading token tree.  The first call's "intro" heading gets
id "intro"; the second call's first "intro" heading gets "intro-2", not
"intro" — the occurrence table persisted across the calls. -/
theorem C5_counterexample :
    (Main.parse demoConfig [demoHeading] st0).toc.map TocEntry.id = ["intro"]
    ∧ (Main.parse demoConfig [demoHeading]
        (Main.parse demoConfig [demoHeading] st0).st).toc.map TocEntry.id
      = ["intro-2"]
    ∧ ("intro-2" : String) ≠ "intro" := by
  refine ⟨?_, ?_, by decide⟩
  · simp [Main.parse, Main.parseTokens, Main.parseTok, Main.parseInline,
      Main.parseInlineTokens, Main.parseInlineTok, Main.getText, Main.getTextList,
      Main.getTextTok, registerSlug, mapHas, mapGet, mapSet, demoConfig, demoHeading,
      st0, joinSep]
  · simp [Main.parse, Main.parseTokens, Main.parseTok, Main.parseInline,
      Main.parseInlineTokens, Main.parseInlineTok, Main.getText, Main.getTextList,
      Main.getTextTok, registerSlug, mapHas, mapGet, mapSet, demoConfig, demoHeading,
      st0, joinSep, List.find?]
    decide

/-- C5 witness: the amended statement instantiated at the empty table (the
heading gets the base slug) and at a table already holding "intro" (the
heading gets the suffixed slug). -/
theorem C5_witness :
    (Main.parse demoConfig [Token.heading 1 [Token.text "intro" none]] st0).toc.map
        TocEntry.id
      = [demoConfig.slugize (Main.getText demoConfig [Token.text "intro" none]).1]
    ∧ (Main.parse demoConfig [Token.heading 1 [Token.text "intro" none]]
          ⟨[], [("intro", 1)]⟩).toc.map TocEntry.id
      = [demoConfig.slugize (Main.getText demoConfig [Token.text "intro" none]).1 ++ "-"
          ++ toString (mapGet [("intro", 1)]
              (demoConfig.slugize (Main.getText demoConfig [Token.text "intro" none]).1)
            + 1)] := by
  refine ⟨(C5_heading_table_threading demoConfig st0 1 _).1 rfl,
    (C5_heading_table_threading demoConfig ⟨[], [("intro", 1)]⟩ 1 _).2 ?_⟩
  simp [Main.getText, Main.getTextList, Main.getTextTok, demoConfig, mapHas, joinSep]

end Foxmd

namespace Foxmd

/-- The block walker distributes over list append. -/
theorem Main.parseTokens_append (cfg : Main.Config) (xs ys : List Token) :
    ∀ st, Main.parseTokens cfg (xs ++ ys) st =
      ⟨(Main.parseTokens cfg xs st).jsx
          ++ (Main.parseTokens cfg ys (Main.parseTokens cfg xs st).st).jsx,
        (Main.parseTokens cfg xs st).toc
          ++ (Main.parseTokens cfg ys (Main.parseTokens cfg xs st).st).toc,
        (Main.parseTokens cfg ys (Main.parseTokens cfg xs st).st).st,
        (Main.parseTokens cfg xs st).warns
          ++ (Main.parseTokens cfg ys (Main.parseTokens cfg xs st).st).warns⟩ := by
  induction xs with
  | nil => intro st; simp [Main.parseTokens]
  | cons t ts ih => intro st; simp [Main.parseTokens, ih]

/-- The inline walker distributes over list append. -/
theorem Main.parseInlineTokens_append (cfg : Main.Config) (xs ys : List Token) :
    ∀ st, Main.parseInlineTokens cfg (xs ++ ys) st =
      ⟨(Main.parseInlineTokens cfg xs st).jsx
          ++ (Main.parseInlineTokens cfg ys (Main.parseInlineTokens cfg xs st).st).jsx,
        (Main.parseInlineTokens cfg ys (Main.parseInlineTokens cfg xs st).st).st,
        (Main.parseInlineTokens cfg xs st).warns
          ++ (Main.parseInlineTokens cfg ys (Main.parseInlineTokens cfg xs st).st).warns⟩ := by
  induction xs with
  | nil => intro st; simp [Main.parseInlineTokens]
  | cons t ts ih => intro st; simp [Main.parseInlineTokens, ih]

/-- The `default:` case of `parse` on an unrecognized token kind: a warning,
a null node, no toc entry, no state change. -/
theorem Main.parseTok_unknown (cfg : Main.Config) (ty : String) (st : Main.St) :
    Main.parseTok cfg (Token.unknown ty) st = ⟨Node.null, [], st, [warnMsg ty]⟩ := by
  rw [Main.parseTok.eq_def]
  simp [tokType]

/-- The `default:` case of `parseInline` on an unrecognized token kind. -/
theorem Main.parseInlineTok_unknown (cfg : Main.Config) (ty : String) (st : Main.St) :
    Main.parseInlineTok cfg (Token.unknown ty) st = ⟨Node.null, st, [warnMsg ty]⟩ := by
  rw [Main.parseInlineTok.eq_def]
  simp [tokType]

/-- C9: a token whose kind is outside the recognized closed set is non-fatal
in both entry points: it contributes a null (no element) at its position,
surfaces exactly one diagnostic warning, changes no state, and the output for
every other token is exactly what it is without the unrecognized token (the
embedding is a total function, so no exception can propagate). -/
theorem C9_unrecognized_token_nonfatal (cfg : Main.Config) (ty : String)
    (xs ys : List Token) (st : Main.St) :
    let A := Main.parseTokens cfg xs st.push
    let B := Main.parseTokens cfg ys A.st
    let C := Main.parseInlineTokens cfg xs st.push
    let D := Main.parseInlineTokens cfg ys C.st
    (Main.parse cfg (xs ++ Token.unknown ty :: ys) st
        = ⟨A.jsx ++ Node.null :: B.jsx, A.toc ++ B.toc, B.st.pop,
            A.warns ++ warnMsg ty :: B.warns⟩)
    ∧ (Main.parse cfg (xs ++ ys) st
        = ⟨A.jsx ++ B.jsx, A.toc ++ B.toc, B.st.pop, A.warns ++ B.warns⟩)
    ∧ (Main.parseInline cfg (xs ++ Token.unknown ty :: ys) st
        = ⟨C.jsx ++ Node.null :: D.jsx, D.st.pop, C.warns ++ warnMsg ty :: D.warns⟩)
    ∧ (Main.parseInline cfg (xs ++ ys) st
        = ⟨C.jsx ++ D.jsx, D.st.pop, C.warns ++ D.warns⟩) := by
  intro A B C D
  refine ⟨?_, ?_, ?_, ?_⟩
  · simp only [Main.parse, Main.parseTokens_append, Main.parseTokens,
      Main.parseTok_unknown, List.nil_append, List.singleton_append]
  · simp only [Main.parse, Main.parseTokens_append]
  · simp only [Main.parseInline, Main.parseInlineTokens_append, Main.parseInlineTokens,
      Main.parseInlineTok_unknown, List.nil_append, List.singleton_append]
  · simp only [Main.parseInline, Main.parseInlineTokens_append]

end Foxmd

namespace Foxmd

/-- C6: both default renderers' link constructors rewrite an href beginning
with javascript:, data: or vbscript: to the inert empty string before the
anchor element is built, pass every other href through unchanged, and the
element produced by the default renderer never carries an unsafe scheme. -/
theorem C6_link_sanitization (cfg : Main.Config) (cfg2 : V2.Config)
    (ids : List Nat) (k href : String) (txt : Node) (title : Option String) :
    (isUnsafeHref href = true →
      propOf (Main.Renderer.link cfg ids href txt title) "href" = some ""
      ∧ propOf (V2.Renderer.link cfg2 k href txt title) "href" = some "")
    ∧ (isUnsafeHref href = false →
      propOf (Main.Renderer.link cfg ids href txt title) "href" = some href
      ∧ propOf (V2.Renderer.link cfg2 k href txt title) "href" = some href)
    ∧ (∀ v, propOf (Main.Renderer.link cfg ids href txt title) "href" = some v →
      isUnsafeHref v = false) := by
  refine ⟨?_, ?_, ?_⟩
  · intro h
    constructor <;>
      simp [Main.Renderer.link, V2.Renderer.link, Main.Renderer.h, V2.Renderer.h,
        h, propOf, List.find?]
  · intro h
    constructor <;>
      simp [Main.Renderer.link, V2.Renderer.link, Main.Renderer.h, V2.Renderer.h,
        h, propOf, List.find?]
  · intro v hv
    by_cases hu : isUnsafeHref href = true
    · simp [Main.Renderer.link, Main.Renderer.h, hu, propOf, List.find?] at hv
      rw [← hv]
      decide
    · simp only [Bool.not_eq_true] at hu
      simp [Main.Renderer.link, Main.Renderer.h, hu, propOf, List.find?] at hv
      rw [← hv]
      exact hu

/-- C6 witness: a javascript: href is neutralized, an https: href passes
through, in both renderer variants. -/
theorem C6_witness :
    (propOf (Main.Renderer.link demoConfig [0] "javascript:alert(1)" Node.null none)
        "href" = some ""
      ∧ propOf (V2.Renderer.link demoConfig2 "0" "javascript:alert(1)" Node.null none)
        "href" = some "")
    ∧ (propOf (Main.Renderer.link demoConfig [0] "https://example.com" Node.null none)
        "href" = some "https://example.com"
      ∧ propOf (V2.Renderer.link demoConfig2 "0" "https://example.com" Node.null none)
        "href" = some "https://example.com") :=
  ⟨(C6_link_sanitization demoConfig demoConfig2 [0] "0" "javascript:alert(1)"
      Node.null none).1 (by decide),
    (C6_link_sanitization demoConfig demoConfig2 [0] "0" "https://example.com"
      Node.null none).2.1 (by decide)⟩

/-- C8: for a paragraph token whose only child is a single image token, the
transcription of that token is exactly the (inline-transcribed) image element
with no paragraph wrapper when the UNSAFE flag is enabled, and a paragraph
element wrapping exactly that image element when the flag is disabled — in
both parser variants. -/
theorem C8_single_image_unwrap (cfg : Main.Config) (cfg2 : V2.Config)
    (st : Main.St) (el : List Nat) (raw : Bool) (buf : String)
    (src alt : String) (title : Option String) :
    (cfg.UNSAFE_pickSingleImageChildOutOfParentParagraph = true →
      (Main.parseTok cfg (Token.paragraph [Token.image src alt title]) st).node
        = Node.list [Main.Renderer.image cfg (st.elIdList ++ [1]) src alt title])
    ∧ (cfg.UNSAFE_pickSingleImageChildOutOfParentParagraph = false →
      (Main.parseTok cfg (Token.paragraph [Token.image src alt title]) st).node
        = Main.Renderer.paragraph cfg (incLast st.elIdList)
            (Node.list [Main.Renderer.image cfg (incLast st.elIdList ++ [1]) src alt title]))
    ∧ (cfg2.UNSAFE_pickSingleImageChildOutOfParentParagraph = true →
      (V2.parseTok cfg2 (Token.paragraph [Token.image src alt title]) el raw buf).node
        = Node.list [V2.Renderer.image cfg2 (getElementId (el ++ [1])) src alt title])
    ∧ (cfg2.UNSAFE_pickSingleImageChildOutOfParentParagraph = false →
      (V2.parseTok cfg2 (Token.paragraph [Token.image src alt title]) el raw buf).node
        = V2.Renderer.paragraph cfg2 (getElementId (incLast el))
            (Node.list [V2.Renderer.image cfg2 (getElementId (incLast el ++ [1]))
                src alt title])) := by
  refine ⟨?_, ?_, ?_, ?_⟩ <;> intro h
  · simp [Main.parseTok, h, isSingleImage, Main.parseInline, Main.parseInlineTokens,
      Main.parseInlineTok, Main.St.push, Main.St.inc, incLast_concat]
  · simp [Main.parseTok, h, isSingleImage, Main.parseInline, Main.parseInlineTokens,
      Main.parseInlineTok, Main.St.push, Main.St.pop, Main.St.inc, incLast_concat,
      List.dropLast_concat]
  · simp [V2.parseTok, h, isSingleImage, V2.parseInline, V2.parseInlineTokens,
      V2.parseInlineTok, incLast_concat]
  · simp [V2.parseTok, h, isSingleImage, V2.parseInline, V2.parseInlineTokens,
      V2.parseInlineTok, incLast_concat, List.dropLast_concat]

/-- C8 witness: the four branches at a concrete image token and the source
default / enabled configurations. -/
theorem C8_witness :
    ((Main.parseTok demoConfigPick (Token.paragraph [Token.image "a.png" "cat" none])
        st0).node
      = Node.list [Main.Renderer.image demoConfigPick ([] ++ [1]) "a.png" "cat" none])
    ∧ ((Main.parseTok demoConfig (Token.paragraph [Token.image "a.png" "cat" none])
        st0).node
      = Main.Renderer.paragraph demoConfig (incLast [])
          (Node.list [Main.Renderer.image demoConfig (incLast [] ++ [1]) "a.png" "cat" none]))
    ∧ ((V2.parseTok demoConfigPick2 (Token.paragraph [Token.image "a.png" "cat" none])
        [] false "").node
      = Node.list [V2.Renderer.image demoConfigPick2 (getElementId ([] ++ [1]))
          "a.png" "cat" none])
    ∧ ((V2.parseTok demoConfig2 (Token.paragraph [Token.image "a.png" "cat" none])
        [] false "").node
      = V2.Renderer.paragraph demoConfig2 (getElementId (incLast []))
          (Node.list [V2.Renderer.image demoConfig2 (getElementId (incLast [] ++ [1]))
              "a.png" "cat" none])) :=
  ⟨(C8_single_image_unwrap demoConfigPick demoConfigPick2 st0 [] false ""
      "a.png" "cat" none).1 rfl,
    (C8_single_image_unwrap demoConfig demoConfig2 st0 [] false ""
      "a.png" "cat" none).2.1 rfl,
    (C8_single_image_unwrap demoConfigPick demoConfigPick2 st0 [] false ""
      "a.png" "cat" none).2.2.1 rfl,
    (C8_single_image_unwrap demoConfig demoConfig2 st0 [] false ""
      "a.png" "cat" none).2.2.2 rfl⟩

end Foxmd

namespace Foxmd

theorem empty_str_append (s : String) : "" ++ s = s := rfl

/-- C1 (code bug): the src/src `parse` 'table' case never calls
`incrementElId()` before `renderer.tableCell`, so both header cells of the
demonstration table are keyed "foxmd-0-0": one top-level transcription call
emits two elements with the same joined identity-path key, violating the
key-uniqueness invariant.  (The part_003 variant increments once per cell.) -/
theorem C1_duplicate_keys_in_table :
    collectKeysList (Main.parse demoConfig [demoTable] st0).jsx
      = ["foxmd-4", "foxmd-2", "foxmd-1", "foxmd-0-0", "foxmd-0-0", "foxmd-3"]
    ∧ ¬ (collectKeysList (Main.parse demoConfig [demoTable] st0).jsx).Nodup := by
  have e : collectKeysList (Main.parse demoConfig [demoTable] st0).jsx
      = ["foxmd-4", "foxmd-2", "foxmd-1", "foxmd-0-0", "foxmd-0-0", "foxmd-3"] := by
    simp [Main.parse, Main.parseTokens, Main.parseTok, Main.tableCells, Main.tableRows,
      Main.parseInline, Main.parseInlineTokens, Main.Renderer.tableCell,
      Main.Renderer.tableRow, Main.Renderer.tableHeader, Main.Renderer.tableBody,
      Main.Renderer.table, Main.Renderer.h, getElementId, joinSep, incLast,
      Main.St.push, Main.St.pop, Main.St.inc, collectKeys, collectKeysList, optProp,
      demoTable, demoConfig, st0, List.dropLast_concat]
    decide
  exact ⟨e, by rw [e]; decide⟩

/-- C2 amended: for an enter/text/exit raw-block token sequence, part_003
`parse` flushes exactly one element (the two buffered positions contribute
null); the flushed content is the concatenation of the entry markup and the
intervening text appended verbatim (never decoded in the buffering path) —
the exit markup itself is NOT part of the buffer, because the exit token
flips `inRawBlock` off and triggers the flush before its own text could be
buffered.  The stack is restored and no diagnostics are emitted. -/
theorem C2_raw_block_buffering (cfg : V2.Config) (el : List Nat) (e t x : String) :
    (V2.parse cfg [Token.html e (some true), Token.text t none,
        Token.html x (some false)] el).jsx
      = [Node.null, Node.null, V2.Renderer.html cfg (getElementId (el ++ [1])) (e ++ t)]
    ∧ (V2.parse cfg [Token.html e (some true), Token.text t none,
        Token.html x (some false)] el).toc = []
    ∧ (V2.parse cfg [Token.html e (some true), Token.text t none,
        Token.html x (some false)] el).elIdList = el
    ∧ (V2.parse cfg [Token.html e (some true), Token.text t none,
        Token.html x (some false)] el).warns = [] := by
  refine ⟨?_, ?_, ?_, ?_⟩ <;>
    simp [V2.parse, V2.parseTokens, V2.parseTok, incLast_concat,
      List.dropLast_concat, empty_str_append]

/-- C2 counterexample: at the spec's own example — a rawHtml token entering a
pre container, text("code & <>"), and the exiting rawHtml token — the single
flushed element carries the content "<pre>code & <>", which is not the
claimed entry-text-exit concatenation "<pre>code & <></pre>": the exit markup
is missing from the buffer. -/
theorem C2_counterexample :
    (V2.parse demoConfig2 [Token.html "<pre>" (some true),
        Token.text "code & <>" none, Token.html "</pre>" (some false)] []).jsx
      = [Node.null, Node.null, Node.str "<pre>code & <>"]
    ∧ ("<pre>code & <>" : String) ≠ "<pre>code & <></pre>" := by
  refine ⟨?_, by decide⟩
  simp [V2.parse, V2.parseTokens, V2.parseTok, V2.Renderer.html, incLast_concat,
    List.dropLast_concat, empty_str_append, demoConfig2]

/-- C7 amended: a space token contributes nothing in the src/src variant's
block context (null, no warning, no nothing); in the part_003 variant's block
context it yields the literal single-space string node.  In INLINE context
both variants treat 'space' as an unrecognized kind: they emit nothing (null)
and surface the diagnostic warning — inline transcription never yields a
space character. -/
theorem C7_space_token (cfg : Main.Config) (cfg2 : V2.Config) (st : Main.St)
    (el : List Nat) :
    (Main.parse cfg [Token.space] st).jsx = [Node.null]
    ∧ (Main.parse cfg [Token.space] st).warns = []
    ∧ (Main.parseInline cfg [Token.space] st).jsx = [Node.null]
    ∧ (Main.parseInline cfg [Token.space] st).warns = [warnMsg "space"]
    ∧ (V2.parse cfg2 [Token.space] el).jsx = [Node.str " "]
    ∧ (V2.parse cfg2 [Token.space] el).warns = []
    ∧ (V2.parseInline cfg2 [Token.space] el).jsx = [Node.null]
    ∧ (V2.parseInline cfg2 [Token.space] el).warns = [warnMsg "space"] := by
  refine ⟨?_, ?_, ?_, ?_, ?_, ?_, ?_, ?_⟩ <;>
    simp [Main.parse, Main.parseTokens, Main.parseTok, Main.parseInline,
      Main.parseInlineTokens, Main.parseInlineTok, V2.parse, V2.parseTokens,
      V2.parseTok, V2.parseInline, V2.parseInlineTokens, V2.parseInlineTok, tokType]

/-- C7 counterexample: in inline context the src/src transcriber emits null
(with a warning) for a space token — not the single literal space character
the claim promises; conversely the part_003 block context emits a literal
space rather than nothing. -/
theorem C7_counterexample :
    (Main.parseInline demoConfig [Token.space] st0).jsx = [Node.null]
    ∧ Node.null ≠ Node.str " "
    ∧ (V2.parse demoConfig2 [Token.space] []).jsx = [Node.str " "]
    ∧ Node.str " " ≠ Node.null := by
  refine ⟨?_, fun h => Node.noConfusion h, ?_, fun h => Node.noConfusion h⟩
  · simp [Main.parseInline, Main.parseInlineTokens, Main.parseInlineTok]
  · simp [V2.parse, V2.parseTokens, V2.parseTok]

end Foxmd
